import Mathlib

/-!
# llama2c `run.c`: the command-line front end

A shallow embedding of `main` of `src/llama2c/run.c` (lines 30-66): the
defaults, the argument scan and the four parameter overrides.

* A C string (`char *`) is a `String`, one `Char` per C `char` (a C string
  has no NUL inside; the statements hold for every `String`); a `NULL`
  pointer is `none`.
* `int` is an `Int` kept in the 32-bit range, `unsigned long long` a `Nat`
  below `2 ^ 64`; every conversion between integer types is written out with
  its modulus.
* `float` and `double` values are `CFloat`: NaN, the two infinities, or a
  finite value given by the rational number it denotes.  Conversions round to
  nearest, ties to even, in the binary64 and binary32 formats.
* `error_usage` prints the synopsis and exits with a failure status; the
  embedding returns `Except.error` tagged with the call site.
* `time(NULL)` is an explicit argument `now` of `main`.
-/

deriving instance DecidableEq for Except

namespace Llama2c

/-! ## Floating-point values -/

/-- A value of C type `float` or `double` (IEEE-754): not-a-number, minus
infinity, plus infinity, or the finite value `q`.  The two zeros are
identified, as they are by the comparison operators of C. -/
inductive CFloat where
  | nan : CFloat
  | ninf : CFloat
  | pinf : CFloat
  | fin (q : ℚ) : CFloat
  deriving DecidableEq

namespace CFloat

/-- C `a < b` on floating operands: false as soon as one operand is NaN. -/
def lt : CFloat → CFloat → Bool
  | nan, _ => false
  | _, nan => false
  | ninf, ninf => false
  | ninf, _ => true
  | _, ninf => false
  | pinf, _ => false
  | fin _, pinf => true
  | fin a, fin b => decide (a < b)

/-- C `a <= b` on floating operands: false as soon as one operand is NaN. -/
def le : CFloat → CFloat → Bool
  | nan, _ => false
  | _, nan => false
  | ninf, _ => true
  | _, ninf => false
  | _, pinf => true
  | pinf, fin _ => false
  | fin a, fin b => decide (a ≤ b)

/-- Test for not-a-number, C `isnan`. -/
def isNaN : CFloat → Bool
  | nan => true
  | _ => false

end CFloat

/-- Nearest integer to `a / b` (for `0 < b`), a tie going to the even one. -/
def roundHalfEven (a b : Nat) : Nat :=
  let q := a / b
  let r := a % b
  if 2 * r < b then q
  else if b < 2 * r then q + 1
  else if q % 2 = 0 then q else q + 1

/-- Halve `n` until it is below two, at most `fuel` times, counting the
halvings. -/
def log2Loop : Nat → Nat → Nat
  | 0, _ => 0
  | fuel + 1, n => if n < 2 then 0 else log2Loop fuel (n / 2) + 1

/-- Floor of the binary logarithm of `n` (`0` for `n = 0`); the `n` rounds
of halving allowed are always enough. -/
def ilog2 (n : Nat) : Nat := log2Loop n n

/-- Binary exponent of `n / d` for positive `n` and `d`: the integer `e` with
`2 ^ e ≤ n / d < 2 ^ (e + 1)`. -/
def binExponent (n d : Nat) : Int :=
  let e0 : Int := (ilog2 n : Int) - (ilog2 d : Int)
  if 0 ≤ e0 then
    (if d * 2 ^ e0.toNat ≤ n then e0 else e0 - 1)
  else
    (if d ≤ n * 2 ^ (-e0).toNat then e0 else e0 - 1)

/-- IEEE-754 round-to-nearest-even of the magnitude `n / d` with sign `neg`
into the binary format of precision `p` bits, least normal exponent `emin`
and greatest exponent `emax`.  Magnitudes below the normal range are rounded
on the subnormal grid, and a rounded magnitude of `2 ^ (emax + 1)` or more
becomes an infinity. -/
def roundNearest (p : Nat) (emin emax : Int) (neg : Bool) (n d : Nat) : CFloat :=
  if n = 0 ∨ d = 0 then CFloat.fin 0
  else
    let e := max (binExponent n d) emin
    let s : Int := e - ((p : Int) - 1)
    let m : Nat :=
      if 0 ≤ s then roundHalfEven n (d * 2 ^ s.toNat)
      else roundHalfEven (n * 2 ^ (-s).toNat) d
    let v : ℚ :=
      if 0 ≤ s then ((m * 2 ^ s.toNat : Nat) : ℚ)
      else mkRat (m : Int) (2 ^ (-s).toNat)
    if (2 : ℚ) ^ (emax + 1).toNat ≤ v then (if neg then CFloat.ninf else CFloat.pinf)
    else CFloat.fin (if neg then -v else v)

/-- Round the signed magnitude `n / d` to a `double` (binary64). -/
def toDouble (neg : Bool) (n d : Nat) : CFloat :=
  roundNearest 53 (-1022) 1023 neg n d

/-- Round the signed magnitude `n / d` to a `float` (binary32). -/
def roundFloat (neg : Bool) (n d : Nat) : CFloat :=
  roundNearest 24 (-126) 127 neg n d

/-- Conversion of a `double` to `float`, as performed by the assignment of a
`double` expression to a `float` variable. -/
def toFloat : CFloat → CFloat
  | CFloat.fin q => roundFloat (decide (q < 0)) q.num.natAbs q.den
  | x => x

/-! ## The C library: `atof` and `atoi` -/

/-- C `isspace` in the "C" locale: space, `\t`, `\n`, `\v`, `\f`, `\r`. -/
def isspace (c : Char) : Bool :=
  c = ' ' || c = '\t' || c = '\n' || c = Char.ofNat 11 || c = Char.ofNat 12 || c = '\r'

/-- Value of a decimal digit character. -/
def digitVal (c : Char) : Option Nat :=
  if '0' ≤ c ∧ c ≤ '9' then some (c.toNat - '0'.toNat) else none

/-- Value of a hexadecimal digit character. -/
def hexVal (c : Char) : Option Nat :=
  if '0' ≤ c ∧ c ≤ '9' then some (c.toNat - '0'.toNat)
  else if 'a' ≤ c ∧ c ≤ 'f' then some (c.toNat - 'a'.toNat + 10)
  else if 'A' ≤ c ∧ c ≤ 'F' then some (c.toNat - 'A'.toNat + 10)
  else none

/-- Read the longest run of digits (as recognised by `val`, in base `base`)
at the head of `cs`, continuing the accumulator `acc`.  Returns the number
read, how many digits were read, and the rest of the input. -/
def readDigits (val : Char → Option Nat) (base : Nat) : List Char → Nat → Nat → Nat × Nat × List Char
  | [], acc, cnt => (acc, cnt, [])
  | c :: cs, acc, cnt =>
    match val c with
    | some v => readDigits val base cs (acc * base + v) (cnt + 1)
    | none => (acc, cnt, c :: cs)

/-- Lower-case an ASCII letter, C `tolower` in the "C" locale. -/
def tolower (c : Char) : Char :=
  if 'A' ≤ c ∧ c ≤ 'Z' then Char.ofNat (c.toNat + 32) else c

/-- Does `cs` start with the three letters `w`, ignoring case? -/
def startsWith3 (w : List Char) (cs : List Char) : Bool :=
  (cs.take 3).map tolower = w

/-- An optional sign at the head of the input: whether it is a minus, and
the rest. -/
def readSign : List Char → Bool × List Char
  | '-' :: cs => (true, cs)
  | '+' :: cs => (false, cs)
  | cs => (false, cs)

/-- Optional exponent part: the letter `mark` (either case, given in lower
case), an optional sign and at least one decimal digit.  Returns the exponent,
`0` when there is no well-formed exponent part. -/
def readExponent (mark : Char) : List Char → Int
  | [] => 0
  | c :: cs =>
    if tolower c = mark then
      let (neg, rest) := readSign cs
      let (v, cnt, _) := readDigits digitVal 10 rest 0 0
      if cnt = 0 then 0 else if neg then -(v : Int) else (v : Int)
    else 0

/-- Mantissa of a floating constant: digits with an optional radix point.
Returns the digits read as one number, the count of digits, the count of
digits after the point, and the rest of the input. -/
def readMantissa (val : Char → Option Nat) (base : Nat) (cs : List Char) :
    Nat × Nat × Nat × List Char :=
  let (ip, icnt, rest) := readDigits val base cs 0 0
  match rest with
  | '.' :: rest1 =>
    let (m, fcnt, rest2) := readDigits val base rest1 ip 0
    if icnt + fcnt = 0 then (0, 0, 0, cs) else (m, icnt + fcnt, fcnt, rest2)
  | _ => (ip, icnt, 0, rest)

/-- The magnitude `m * b ^ x` as a fraction `(n, d)` of naturals. -/
def scaled (m b : Nat) (x : Int) : Nat × Nat :=
  if 0 ≤ x then (m * b ^ x.toNat, 1) else (m, b ^ (-x).toNat)

/-- Magnitude denoted by the longest initial floating constant of `cs` (sign
already removed), as a fraction of naturals: a hexadecimal constant `0x h.h p±d`
if there is one, otherwise a decimal constant `d.d e±d`, otherwise `none`. -/
def readMagnitude (cs : List Char) : Option (Nat × Nat) :=
  let hex : Option (Nat × Nat) :=
    match cs with
    | '0' :: x :: rest =>
      if tolower x = 'x' then
        let (m, cnt, fcnt, rest1) := readMantissa hexVal 16 rest
        if cnt = 0 then none
        else
          let (n, d) := scaled m 2 (readExponent 'p' rest1 - 4 * (fcnt : Int))
          some (n, d)
      else none
    | _ => none
  match hex with
  | some r => some r
  | none =>
    let (m, cnt, fcnt, rest1) := readMantissa digitVal 10 cs
    if cnt = 0 then none
    else some (scaled m 10 (readExponent 'e' rest1 - (fcnt : Int)))

/-- C library `atof`, that is `strtod(s, NULL)` in the "C" locale (ISO C99
7.20.1.1, 7.20.1.3): skip white space, take an optional sign, then the longest
initial text that is `inf`/`infinity`, `nan`/`nan(...)` (any case), a
hexadecimal or a decimal floating constant; the result is that value rounded
to `double`, and `0` when no such text is present. -/
def atof (s : String) : CFloat :=
  let cs := s.data.dropWhile isspace
  let (neg, rest) := readSign cs
  if startsWith3 ['i', 'n', 'f'] rest then (if neg then CFloat.ninf else CFloat.pinf)
  else if startsWith3 ['n', 'a', 'n'] rest then CFloat.nan
  else
    match readMagnitude rest with
    | some (n, d) => toDouble neg n d
    | none => CFloat.fin 0

/-- Wrap an integer into the range of C `int` (32-bit two's complement). -/
def wrapInt (z : Int) : Int :=
  (z + 2 ^ 31) % 2 ^ 32 - 2 ^ 31

/-- C library `atoi`, as `(int) strtol(s, NULL, 10)` with a 64-bit `long`:
skip white space, take an optional sign and the longest run of decimal digits
(`0` when there is none); a value outside the range of `long` saturates (ISO C
leaves that case undefined), and the conversion to `int` keeps the low 32
bits. -/
def atoi (s : String) : Int :=
  let cs := s.data.dropWhile isspace
  let (neg, rest) := readSign cs
  let (v, _, _) := readDigits digitVal 10 rest 0 0
  let z : Int := if neg then -(v : Int) else (v : Int)
  wrapInt (max (-(2 ^ 63)) (min (2 ^ 63 - 1) z))

/-! ## `main`: defaults, argument scan, overrides -/

/-- The call sites of `error_usage` in `main`, named as in the error taxonomy
of the specification: line 43 (no `argv[1]`) is `MissingCheckpoint`; lines 47,
48 and 49 (no token after the flag, flag not starting with a dash, flag not
two characters long) are `MalformedFlag`; line 60 (the final `else` of the
dispatch) is `UnknownFlag`. -/
inductive UsageError where
  | MissingCheckpoint : UsageError
  | MalformedFlag : UsageError
  | UnknownFlag : UsageError
  deriving DecidableEq

/-- The local variables of `main` (lines 33-41), which are the fields of the
generation request handed on after line 66. -/
structure GenerationRequest where
  checkpoint_path : Option String
  tokenizer_path : String
  temperature : CFloat
  topp : CFloat
  steps : Int
  prompt : Option String
  rng_seed : Nat
  mode : String
  system_prompt : Option String
  deriving DecidableEq

/-- The function `error_usage` (lines 15-28): it writes the synopsis to
`stderr` and calls `exit(EXIT_FAILURE)`, so no request is produced.  The
argument records which call site was reached. -/
def error_usage (site : UsageError) : Except UsageError GenerationRequest :=
  Except.error site

/-- The float constant `0.9f`: the decimal `0.9` rounded to binary32. -/
@[irreducible]
def float_0_9 : CFloat := roundFloat false 9 10

/-- The double constant `0.9`: the decimal `0.9` rounded to binary64. -/
@[irreducible]
def double_0_9 : CFloat := toDouble false 9 10

/-- The initial values of the locals, lines 33-41. -/
def defaults : GenerationRequest where
  checkpoint_path := none
  tokenizer_path := "tokenizer.bin"
  temperature := CFloat.fin 1
  topp := float_0_9
  steps := 256
  prompt := none
  rng_seed := 0
  mode := "generate"
  system_prompt := none

/-- The character `s[k]` of a C string: the `k`-th character, and the
terminating NUL at index `strlen(s)`. -/
def charAt (s : String) (k : Nat) : Char :=
  s.data.getD k (Char.ofNat 0)

/-- C `strlen`. -/
def strlen (s : String) : Nat :=
  s.data.length

/-- Conversion of an `int` to `unsigned long long`: reduction modulo `2 ^ 64`. -/
def toULongLong (z : Int) : Nat :=
  (z % 2 ^ 64).toNat

/-- Conversion of a `time_t` to `unsigned int`: reduction modulo `2 ^ 32`. -/
def toUInt (z : Int) : Nat :=
  (z % 2 ^ 32).toNat

/-- One round of the `for` loop with a value token present, lines 48-60:
the two checks on the flag token `argv[i]`, then the dispatch on its second
character, which stores the value token `argv[i + 1]`. -/
def loopBody (flag value : String) (st : GenerationRequest) :
    Except UsageError GenerationRequest :=
  if charAt flag 0 ≠ '-' then error_usage UsageError.MalformedFlag
  else if strlen flag ≠ 2 then error_usage UsageError.MalformedFlag
  else if charAt flag 1 = 't' then Except.ok { st with temperature := toFloat (atof value) }
  else if charAt flag 1 = 'p' then Except.ok { st with topp := toFloat (atof value) }
  else if charAt flag 1 = 's' then Except.ok { st with rng_seed := toULongLong (atoi value) }
  else if charAt flag 1 = 'n' then Except.ok { st with steps := atoi value }
  else if charAt flag 1 = 'i' then Except.ok { st with prompt := some value }
  else if charAt flag 1 = 'z' then Except.ok { st with tokenizer_path := value }
  else if charAt flag 1 = 'm' then Except.ok { st with mode := value }
  else if charAt flag 1 = 'y' then Except.ok { st with system_prompt := some value }
  else error_usage UsageError.UnknownFlag

/-- The `for` loop of lines 45-61 over the tokens `argv[2..]`: `i` points at
the head of the list and each round consumes two tokens.  A lone last token
fails the test of line 47 (`i + 1 >= argc`) before its text is looked at. -/
def argLoop : List String → GenerationRequest → Except UsageError GenerationRequest
  | [], st => Except.ok st
  | [_], _ => error_usage UsageError.MalformedFlag
  | flag :: value :: rest, st =>
    match loopBody flag value st with
    | Except.ok st1 => argLoop rest st1
    | Except.error e => Except.error e

/-- Line 63: `if (rng_seed <= 0) rng_seed = (unsigned int)time(NULL);`, the
comparison being one of `unsigned long long`. -/
def seedRule (now : Int) (st : GenerationRequest) : GenerationRequest :=
  if st.rng_seed ≤ 0 then { st with rng_seed := toUInt now } else st

/-- Line 64: `if (temperature < 0.0) temperature = 0.0;`. -/
def temperatureRule (st : GenerationRequest) : GenerationRequest :=
  if CFloat.lt st.temperature (CFloat.fin 0) then { st with temperature := CFloat.fin 0 } else st

/-- Line 65: `if (topp < 0.0 || 1.0 < topp) topp = 0.9;`, the `double`
constant being converted to `float` by the assignment. -/
def toppRule (st : GenerationRequest) : GenerationRequest :=
  if CFloat.lt st.topp (CFloat.fin 0) || CFloat.lt (CFloat.fin 1) st.topp then
    { st with topp := toFloat double_0_9 }
  else st

/-- Line 66: `if (steps < 0) steps = 0;`. -/
def stepsRule (st : GenerationRequest) : GenerationRequest :=
  if st.steps < 0 then { st with steps := 0 } else st

/-- Lines 62-66, the parameter overrides in source order. -/
def overrides (now : Int) (st : GenerationRequest) : GenerationRequest :=
  stepsRule (toppRule (temperatureRule (seedRule now st)))

/-- The function `main` up to line 66, on the tokens `argv[1..]` (so that
`argc >= 2` reads "the list is not empty") and the value `now` that
`time(NULL)` returns. -/
def main (argv : List String) (now : Int) : Except UsageError GenerationRequest :=
  match argv with
  | [] => error_usage UsageError.MissingCheckpoint
  | checkpoint :: rest =>
    match argLoop rest { defaults with checkpoint_path := some checkpoint } with
    | Except.ok st => Except.ok (overrides now st)
    | Except.error e => Except.error e

/-! ## Vocabulary of the properties -/

/-- The eight option letters of the dispatch, lines 52-59. -/
def optionLetters : List Char := ['t', 'p', 's', 'n', 'i', 'z', 'm', 'y']

/-- The two-character token made of a dash followed by `c`. -/
def flagToken (c : Char) : String := String.mk ['-', c]

/-- A flag token that is a dash followed by one of the eight option letters. -/
def recognised (flag : String) : Bool :=
  optionLetters.any (fun c => decide (flag = flagToken c))

/-- A token list made of (flag, value) pairs whose flags are all recognised. -/
def goodPairs : List String → Bool
  | [] => true
  | [_] => false
  | flag :: _ :: rest => recognised flag && goodPairs rest

/-- The value token of the last (flag, value) pair of the token list whose
flag is a dash followed by `c`, if there is such a pair. -/
def lastValue (c : Char) : List String → Option String
  | flag :: value :: rest =>
    match lastValue c rest with
    | some v => some v
    | none => if flag = flagToken c then some value else none
  | _ => none

/-- The assignment that the dispatch of lines 52-59 performs for the option
letter `c` and the value token `value`. -/
def store (c : Char) (value : String) (st : GenerationRequest) : GenerationRequest :=
  if c = 't' then { st with temperature := toFloat (atof value) }
  else if c = 'p' then { st with topp := toFloat (atof value) }
  else if c = 's' then { st with rng_seed := toULongLong (atoi value) }
  else if c = 'n' then { st with steps := atoi value }
  else if c = 'i' then { st with prompt := some value }
  else if c = 'z' then { st with tokenizer_path := value }
  else if c = 'm' then { st with mode := value }
  else if c = 'y' then { st with system_prompt := some value }
  else st

/-- The locals after a successful scan, field by field, read off the last
pair of each flag: the value of that pair as the dispatch stores it, or the
field of `st` when the flag has no pair. -/
def lastWins (toks : List String) (st : GenerationRequest) : GenerationRequest where
  checkpoint_path := st.checkpoint_path
  tokenizer_path := (lastValue 'z' toks).getD st.tokenizer_path
  temperature := ((lastValue 't' toks).map (fun v => toFloat (atof v))).getD st.temperature
  topp := ((lastValue 'p' toks).map (fun v => toFloat (atof v))).getD st.topp
  steps := ((lastValue 'n' toks).map atoi).getD st.steps
  prompt := ((lastValue 'i' toks).map some).getD st.prompt
  rng_seed := ((lastValue 's' toks).map (fun v => toULongLong (atoi v))).getD st.rng_seed
  mode := (lastValue 'm' toks).getD st.mode
  system_prompt := ((lastValue 'y' toks).map some).getD st.system_prompt

/-- The four overrides of lines 63-66, in source order. -/
def sourceRules (now : Int) : List (GenerationRequest → GenerationRequest) :=
  [seedRule now, temperatureRule, toppRule, stepsRule]

/-- Apply a list of rules one after the other, the head of the list first. -/
def applyRules (rules : List (GenerationRequest → GenerationRequest))
    (st : GenerationRequest) : GenerationRequest :=
  rules.foldl (fun s rule => rule s) st

/-- The text of a value token after the white space and the optional sign
that `atof` and `atoi` skip. -/
def afterSign (s : String) : List Char :=
  (readSign (s.data.dropWhile isspace)).2

/-- A value token with no numeric prefix: after optional white space and an
optional sign, the text continues neither with a decimal digit nor with a
point followed by a decimal digit. -/
def noNumericPrefix (s : String) : Bool :=
  match afterSign s with
  | [] => true
  | c :: cs =>
    if (digitVal c).isSome then false
    else if c = '.' then
      (match cs with
        | [] => true
        | d :: _ => (digitVal d).isNone)
    else true

/-- A value token that, after optional white space and an optional sign,
continues with the letters `inf` or `nan` in any letter case. -/
def startsInfNan (s : String) : Bool :=
  startsWith3 ['i', 'n', 'f'] (afterSign s) || startsWith3 ['n', 'a', 'n'] (afterSign s)

/-! ## Lemmas on the scan -/

theorem flagToken_injective (a b : Char) (h : flagToken a = flagToken b) : a = b := by
  have hd : ['-', a] = ['-', b] := congrArg String.data h
  simpa using hd

theorem recognised_iff (flag : String) :
    recognised flag = true ↔ ∃ c, c ∈ optionLetters ∧ flag = flagToken c := by
  simp [recognised, List.any_eq_true]

theorem loopBody_flagToken (c : Char) (hc : c ∈ optionLetters) (value : String)
    (st : GenerationRequest) :
    loopBody (flagToken c) value st = Except.ok (store c value st) := by
  simp only [optionLetters, List.mem_cons, List.mem_singleton, List.not_mem_nil, or_false] at hc
  rcases hc with h | h | h | h | h | h | h | h <;> subst h <;> rfl

theorem loopBody_ok (flag value : String) (st st1 : GenerationRequest)
    (h : loopBody flag value st = Except.ok st1) :
    ∃ c, c ∈ optionLetters ∧ flag = flagToken c ∧ st1 = store c value st := by
  obtain ⟨data⟩ := flag
  match data with
  | [] => simp [loopBody, charAt, error_usage] at h
  | [a] =>
    by_cases ha : a = '-' <;> simp [loopBody, charAt, strlen, error_usage, ha] at h
  | a :: b :: c :: l =>
    by_cases ha : a = '-' <;> simp [loopBody, charAt, strlen, error_usage, ha] at h
  | [a, b] =>
    by_cases ha : a = '-'
    · subst ha
      refine ⟨b, ?_, rfl, ?_⟩
      · by_contra hb
        simp only [optionLetters, List.mem_cons, List.mem_singleton, List.not_mem_nil,
          or_false, not_or] at hb
        obtain ⟨h1, h2, h3, h4, h5, h6, h7, h8⟩ := hb
        simp [loopBody, charAt, strlen, error_usage, h1, h2, h3, h4, h5, h6, h7, h8] at h
      · simp only [loopBody, charAt, strlen, store] at h ⊢
        simp only [List.getD_cons_zero, List.getD_cons_succ, ne_eq, not_true_eq_false,
          if_false, List.length_cons, List.length_nil] at h
        split_ifs at h ⊢ <;> first | (injection h with h; exact h.symm) | (simp [error_usage] at h)
    · simp [loopBody, charAt, strlen, error_usage, ha] at h

theorem flagToken_eq_iff (a b : Char) : flagToken a = flagToken b ↔ a = b :=
  ⟨flagToken_injective a b, fun h => by rw [h]⟩

/-- Induction over a token list two tokens at a time. -/
theorem pairs_induction {P : List String → Prop} (h0 : P [])
    (h1 : ∀ a, P [a]) (h2 : ∀ a b l, P l → P (a :: b :: l)) : ∀ l, P l := by
  have key : ∀ l, P l ∧ ∀ a, P (a :: l) := by
    intro l
    induction l with
    | nil => exact ⟨h0, h1⟩
    | cons b l ih => exact ⟨ih.2 b, fun a => h2 a b l ih.1⟩
  exact fun l => (key l).1

theorem lastValue_cons_same (x : Char) (value : String) (rest : List String) :
    lastValue x (flagToken x :: value :: rest) = some ((lastValue x rest).getD value) := by
  rw [lastValue]
  cases lastValue x rest <;> simp

theorem lastValue_cons_other (x : Char) (flag value : String) (rest : List String)
    (h : flag ≠ flagToken x) :
    lastValue x (flag :: value :: rest) = lastValue x rest := by
  rw [lastValue]
  cases lastValue x rest <;> simp [h]

theorem flagToken_ne (a b : Char) (h : a ≠ b) : flagToken a ≠ flagToken b :=
  fun e => h (flagToken_injective a b e)

theorem lastWins_nil (st : GenerationRequest) : lastWins [] st = st := by
  cases st
  simp [lastWins, lastValue]

theorem lastWins_store (c : Char) (hc : c ∈ optionLetters) (value : String)
    (rest : List String) (st : GenerationRequest) :
    lastWins rest (store c value st) = lastWins (flagToken c :: value :: rest) st := by
  simp only [optionLetters, List.mem_cons, List.mem_singleton, List.not_mem_nil, or_false] at hc
  rcases hc with h | h | h | h | h | h | h | h <;> subst h <;>
    simp [lastWins, store, lastValue_cons_same, lastValue_cons_other, flagToken_ne,
      Option.getD_map]

theorem argLoop_lastWins (toks : List String) :
    ∀ st st1 : GenerationRequest, argLoop toks st = Except.ok st1 → st1 = lastWins toks st := by
  induction toks using pairs_induction with
  | h0 =>
    intro st st1 h
    simp only [argLoop, Except.ok.injEq] at h
    rw [lastWins_nil, h]
  | h1 a =>
    intro st st1 h
    simp [argLoop, error_usage] at h
  | h2 flag value rest ih =>
    intro st st1 h
    rw [argLoop] at h
    cases hb : loopBody flag value st with
    | error e => simp [hb] at h
    | ok st2 =>
      simp only [hb] at h
      obtain ⟨c, hc, hflag, hst⟩ := loopBody_ok flag value st st2 hb
      rw [ih st2 st1 h, hst, hflag, lastWins_store c hc]

theorem argLoop_goodPairs (toks : List String) :
    ∀ st : GenerationRequest, goodPairs toks = true →
      argLoop toks st = Except.ok (lastWins toks st) := by
  induction toks using pairs_induction with
  | h0 => intro st _; rw [lastWins_nil]; rfl
  | h1 a => intro st h; simp [goodPairs] at h
  | h2 flag value rest ih =>
    intro st h
    simp only [goodPairs, Bool.and_eq_true] at h
    obtain ⟨c, hc, hflag⟩ := (recognised_iff flag).1 h.1
    rw [argLoop, hflag, loopBody_flagToken c hc, ← lastWins_store c hc]
    exact ih _ h.2

theorem argLoop_ok_goodPairs (toks : List String) :
    ∀ st st1 : GenerationRequest, argLoop toks st = Except.ok st1 → goodPairs toks = true := by
  induction toks using pairs_induction with
  | h0 => intro _ _ _; rfl
  | h1 a => intro st st1 h; simp [argLoop, error_usage] at h
  | h2 flag value rest ih =>
    intro st st1 h
    rw [argLoop] at h
    cases hb : loopBody flag value st with
    | error e => simp [hb] at h
    | ok st2 =>
      simp only [hb] at h
      obtain ⟨c, hc, hflag, _⟩ := loopBody_ok flag value st st2 hb
      simp only [goodPairs, Bool.and_eq_true]
      exact ⟨(recognised_iff flag).2 ⟨c, hc, hflag⟩, ih st2 st1 h⟩

theorem argLoop_append (pre : List String) :
    ∀ (more : List String) (st : GenerationRequest), goodPairs pre = true →
      argLoop (pre ++ more) st = argLoop more (lastWins pre st) := by
  induction pre using pairs_induction with
  | h0 => intro more st _; rw [lastWins_nil]; rfl
  | h1 a => intro more st h; simp [goodPairs] at h
  | h2 flag value rest ih =>
    intro more st h
    simp only [goodPairs, Bool.and_eq_true] at h
    obtain ⟨c, hc, hflag⟩ := (recognised_iff flag).1 h.1
    rw [List.cons_append, List.cons_append, argLoop, hflag, loopBody_flagToken c hc,
      ← lastWins_store c hc]
    exact ih more _ h.2

theorem main_cons (c : String) (rest : List String) (now : Int) :
    main (c :: rest) now =
      match argLoop rest { defaults with checkpoint_path := some c } with
      | Except.ok st => Except.ok (overrides now st)
      | Except.error e => Except.error e := rfl

theorem main_ok (argv : List String) (now : Int) (r : GenerationRequest)
    (h : main argv now = Except.ok r) :
    ∃ c rest, argv = c :: rest ∧ goodPairs rest = true ∧
      r = overrides now (lastWins rest { defaults with checkpoint_path := some c }) := by
  cases argv with
  | nil => simp [main, error_usage] at h
  | cons c rest =>
    rw [main_cons] at h
    cases hl : argLoop rest { defaults with checkpoint_path := some c } with
    | error e => simp [hl] at h
    | ok st =>
      simp only [hl, Except.ok.injEq] at h
      refine ⟨c, rest, rfl, argLoop_ok_goodPairs rest _ _ hl, ?_⟩
      rw [← h, argLoop_lastWins rest _ _ hl]

theorem main_goodPairs (c : String) (rest : List String) (now : Int)
    (h : goodPairs rest = true) :
    main (c :: rest) now =
      Except.ok (overrides now (lastWins rest { defaults with checkpoint_path := some c })) := by
  rw [main_cons, argLoop_goodPairs rest _ h]

/-! ## Lemmas on floating-point values -/

theorem log2Loop_eq_log2 (fuel : Nat) : ∀ n, n ≤ fuel → log2Loop fuel n = Nat.log2 n := by
  induction fuel with
  | zero =>
    intro n h
    have h0 : n = 0 := Nat.le_zero.1 h
    subst h0
    rw [log2Loop, Nat.log2]
    rfl
  | succ k ih =>
    intro n h
    rw [log2Loop, Nat.log2]
    by_cases h2 : n < 2
    · rw [if_pos h2, if_neg (by omega)]
    · rw [if_neg h2, if_pos (by omega), ih (n / 2) (by omega)]

/-- The halving loop of `ilog2` never runs out of rounds: `ilog2` is the
floor of the binary logarithm. -/
theorem ilog2_eq_log2 (n : Nat) : ilog2 n = Nat.log2 n :=
  log2Loop_eq_log2 n n (le_refl n)

theorem roundNearest_cases (p : Nat) (emin emax : Int) (neg : Bool) (n d : Nat) :
    roundNearest p emin emax neg n d = (if neg then CFloat.ninf else CFloat.pinf) ∨
      ∃ v : ℚ, 0 ≤ v ∧ roundNearest p emin emax neg n d = CFloat.fin (if neg then -v else v) := by
  by_cases h0 : n = 0 ∨ d = 0
  · right
    refine ⟨0, le_refl 0, ?_⟩
    simp [roundNearest, h0]
  · simp only [roundNearest, h0, if_false]
    split_ifs with hs hv hn hn hv hn hn
    · left; rfl
    · left; rfl
    · right; exact ⟨_, Nat.cast_nonneg _, rfl⟩
    · right; exact ⟨_, Nat.cast_nonneg _, rfl⟩
    · left; rfl
    · left; rfl
    · right; exact ⟨_, Rat.mkRat_nonneg (Int.natCast_nonneg _) _, rfl⟩
    · right; exact ⟨_, Rat.mkRat_nonneg (Int.natCast_nonneg _) _, rfl⟩

theorem roundNearest_ne_nan (p : Nat) (emin emax : Int) (neg : Bool) (n d : Nat) :
    roundNearest p emin emax neg n d ≠ CFloat.nan := by
  rcases roundNearest_cases p emin emax neg n d with h | ⟨v, _, h⟩ <;> rw [h] <;>
    cases neg <;> simp

theorem toFloat_eq_nan_iff (x : CFloat) : toFloat x = CFloat.nan ↔ x = CFloat.nan := by
  cases x with
  | fin q => simp [toFloat, roundFloat, roundNearest_ne_nan]
  | _ => simp [toFloat]

/-- Conversion to `float` keeps a negative value negative or rounds it to zero. -/
theorem toFloat_of_neg (x : CFloat) (h : CFloat.lt x (CFloat.fin 0) = true) :
    CFloat.lt (toFloat x) (CFloat.fin 0) = true ∨ toFloat x = CFloat.fin 0 := by
  cases x with
  | nan => simp [CFloat.lt] at h
  | pinf => simp [CFloat.lt] at h
  | ninf => left; simp [toFloat, CFloat.lt]
  | fin q =>
    have hq : q < 0 := by simpa [CFloat.lt] using h
    simp only [toFloat, roundFloat, hq, decide_True]
    rcases roundNearest_cases 24 (-126) 127 true q.num.natAbs q.den with h1 | ⟨v, hv, h1⟩
    · left; rw [h1]; simp [CFloat.lt]
    · rw [h1]
      rcases eq_or_lt_of_le hv with h2 | h2
      · right; simp [← h2]
      · left; simp [CFloat.lt, h2]

theorem toFloat_double_0_9 : toFloat double_0_9 = float_0_9 := by decide!

theorem float_0_9_val : float_0_9 = CFloat.fin (7549747 / 8388608) := by decide!

/-- The clamp of line 64 on a single value. -/
theorem clamp_temperature (t : CFloat) :
    ((if CFloat.lt t (CFloat.fin 0) then CFloat.fin 0 else t) = CFloat.nan ↔ t = CFloat.nan) ∧
      (t ≠ CFloat.nan →
        CFloat.le (CFloat.fin 0) (if CFloat.lt t (CFloat.fin 0) then CFloat.fin 0 else t) = true) := by
  cases t with
  | fin q =>
    by_cases hq : q < 0
    · simp [CFloat.lt, CFloat.le, hq]
    · simp [CFloat.lt, CFloat.le, hq, not_lt.1 hq]
  | _ => simp [CFloat.lt, CFloat.le]

/-- The reset of line 65 on a single value. -/
theorem reset_topp (t : CFloat) :
    ((if (CFloat.lt t (CFloat.fin 0) || CFloat.lt (CFloat.fin 1) t) then float_0_9 else t)
        = CFloat.nan ↔ t = CFloat.nan) ∧
      (t ≠ CFloat.nan →
        CFloat.le (CFloat.fin 0)
            (if (CFloat.lt t (CFloat.fin 0) || CFloat.lt (CFloat.fin 1) t) then float_0_9 else t)
          = true ∧
        CFloat.le
            (if (CFloat.lt t (CFloat.fin 0) || CFloat.lt (CFloat.fin 1) t) then float_0_9 else t)
            (CFloat.fin 1) = true) := by
  rw [float_0_9_val]
  cases t with
  | fin q =>
    by_cases hq : q < 0
    · simp [CFloat.lt, CFloat.le, hq]; norm_num
    · by_cases hq1 : 1 < q
      · simp [CFloat.lt, CFloat.le, hq, hq1]; norm_num
      · simp [CFloat.lt, CFloat.le, hq, hq1, not_lt.1 hq, not_lt.1 hq1]
  | _ => simp [CFloat.lt, CFloat.le] <;> norm_num

/-! ## Lemmas on the overrides -/

theorem seedRule_eq (now : Int) (st : GenerationRequest) :
    seedRule now st =
      { st with rng_seed := if st.rng_seed = 0 then toUInt now else st.rng_seed } := by
  unfold seedRule
  by_cases h : st.rng_seed = 0
  · rw [if_pos (by omega), if_pos h]
  · rw [if_neg (by omega), if_neg h]

theorem temperatureRule_eq (st : GenerationRequest) :
    temperatureRule st =
      { st with temperature :=
          if CFloat.lt st.temperature (CFloat.fin 0) then CFloat.fin 0 else st.temperature } := by
  unfold temperatureRule
  by_cases h : CFloat.lt st.temperature (CFloat.fin 0) = true
  · rw [if_pos h, if_pos h]
  · rw [if_neg h, if_neg h]

theorem toppRule_eq (st : GenerationRequest) :
    toppRule st =
      { st with topp :=
          if (CFloat.lt st.topp (CFloat.fin 0) || CFloat.lt (CFloat.fin 1) st.topp) then float_0_9
          else st.topp } := by
  unfold toppRule
  rw [toFloat_double_0_9]
  by_cases h : (CFloat.lt st.topp (CFloat.fin 0) || CFloat.lt (CFloat.fin 1) st.topp) = true
  · rw [if_pos h, if_pos h]
  · rw [if_neg h, if_neg h]

theorem stepsRule_eq (st : GenerationRequest) :
    stepsRule st = { st with steps := if st.steps < 0 then 0 else st.steps } := by
  unfold stepsRule
  by_cases h : st.steps < 0
  · rw [if_pos h, if_pos h]
  · rw [if_neg h, if_neg h]

theorem overrides_eq (now : Int) (st : GenerationRequest) :
    overrides now st =
      { st with
        rng_seed := if st.rng_seed = 0 then toUInt now else st.rng_seed
        temperature :=
          if CFloat.lt st.temperature (CFloat.fin 0) then CFloat.fin 0 else st.temperature
        topp :=
          if (CFloat.lt st.topp (CFloat.fin 0) || CFloat.lt (CFloat.fin 1) st.topp) then float_0_9
          else st.topp
        steps := if st.steps < 0 then 0 else st.steps } := by
  unfold overrides
  rw [seedRule_eq, temperatureRule_eq, toppRule_eq, stepsRule_eq]

theorem loopBody_error (flag value : String) (st : GenerationRequest) (e : UsageError)
    (h : loopBody flag value st = Except.error e) : e ≠ UsageError.MissingCheckpoint := by
  intro he
  subst he
  unfold loopBody error_usage at h
  repeat' split at h
  all_goals cases h

theorem argLoop_error (toks : List String) :
    ∀ (st : GenerationRequest) (e : UsageError), argLoop toks st = Except.error e →
      e ≠ UsageError.MissingCheckpoint := by
  induction toks using pairs_induction with
  | h0 => intro st e h; simp [argLoop] at h
  | h1 a => intro st e h; simp only [argLoop, error_usage, Except.error.injEq] at h; simp [← h]
  | h2 flag value rest ih =>
    intro st e h
    rw [argLoop] at h
    cases hb : loopBody flag value st with
    | error e1 =>
      simp only [hb, Except.error.injEq] at h
      exact h ▸ loopBody_error flag value st e1 hb
    | ok st2 =>
      simp only [hb] at h
      exact ih st2 e h

theorem wrapInt_range (z : Int) : -(2 ^ 31) ≤ wrapInt z ∧ wrapInt z < 2 ^ 31 := by
  unfold wrapInt
  constructor <;> omega

theorem atoi_range (s : String) : -(2 ^ 31) ≤ atoi s ∧ atoi s < 2 ^ 31 := by
  unfold atoi
  exact wrapInt_range _

theorem toULongLong_pos (z : Int) (h0 : z ≠ 0) (h1 : -(2 ^ 31) ≤ z) (h2 : z < 2 ^ 31) :
    0 < toULongLong z := by
  unfold toULongLong
  omega

theorem toUInt_pos (now : Int) (h : now % 2 ^ 32 ≠ 0) : 0 < toUInt now := by
  unfold toUInt
  omega

theorem main_ok_checkpoint (c : String) (rest : List String) (now : Int)
    (r : GenerationRequest) (h : main (c :: rest) now = Except.ok r) :
    r.checkpoint_path = some c := by
  obtain ⟨c1, rest1, he, _, rfl⟩ := main_ok (c :: rest) now r h
  simp only [List.cons.injEq] at he
  rw [overrides_eq, he.1]
  rfl

theorem loopBody_unknown (x : Char) (hx : x ∉ optionLetters) (value : String)
    (st : GenerationRequest) :
    loopBody (flagToken x) value st = Except.error UsageError.UnknownFlag := by
  simp only [optionLetters, List.mem_cons, List.mem_singleton, List.not_mem_nil,
    or_false, not_or] at hx
  obtain ⟨h1, h2, h3, h4, h5, h6, h7, h8⟩ := hx
  simp [loopBody, charAt, strlen, flagToken, error_usage, h1, h2, h3, h4, h5, h6, h7, h8]

theorem loopBody_malformed (flag value : String) (st : GenerationRequest)
    (h : charAt flag 0 ≠ '-' ∨ strlen flag ≠ 2) :
    loopBody flag value st = Except.error UsageError.MalformedFlag := by
  unfold loopBody error_usage
  by_cases h0 : charAt flag 0 ≠ '-'
  · rw [if_pos h0]
  · rw [if_neg h0, if_pos (h.resolve_left h0)]

theorem argLoop_malformed (flag : String) (rest : List String) (st : GenerationRequest)
    (h : charAt flag 0 ≠ '-' ∨ strlen flag ≠ 2) :
    argLoop (flag :: rest) st = Except.error UsageError.MalformedFlag := by
  cases rest with
  | nil => rfl
  | cons value rest => rw [argLoop, loopBody_malformed flag value st h]

theorem argLoop_odd (toks : List String) :
    ∀ st : GenerationRequest, toks.length % 2 = 1 → ∃ e, argLoop toks st = Except.error e := by
  induction toks using pairs_induction with
  | h0 => intro st h; simp at h
  | h1 a => intro st _; exact ⟨UsageError.MalformedFlag, rfl⟩
  | h2 flag value rest ih =>
    intro st h
    have hr : rest.length % 2 = 1 := by
      simp only [List.length_cons] at h
      omega
    rw [argLoop]
    cases hb : loopBody flag value st with
    | error e => exact ⟨e, rfl⟩
    | ok st2 => exact ih st2 hr

theorem lastValue_none_of_not_mem (x : Char) (toks : List String)
    (h : flagToken x ∉ toks) : lastValue x toks = none := by
  induction toks using pairs_induction with
  | h0 => rfl
  | h1 a => rfl
  | h2 flag value rest ih =>
    simp only [List.mem_cons, not_or] at h
    rw [lastValue_cons_other x flag value rest (fun e => h.1 e.symm)]
    exact ih h.2.2

/-- Conversion to `float` of a value that is not below zero is not below zero. -/
theorem toFloat_of_nonneg (x : CFloat) (h : CFloat.le (CFloat.fin 0) x = true) :
    CFloat.lt (toFloat x) (CFloat.fin 0) = false := by
  cases x with
  | nan => simp [CFloat.le] at h
  | ninf => simp [CFloat.le] at h
  | pinf => simp [toFloat, CFloat.lt]
  | fin q =>
    have hq : ¬ q < 0 := by
      have : 0 ≤ q := by simpa [CFloat.le] using h
      exact not_lt.2 this
    simp only [toFloat, roundFloat, hq, decide_False]
    rcases roundNearest_cases 24 (-126) 127 false q.num.natAbs q.den with h1 | ⟨v, hv, h1⟩
    · rw [h1]; simp [CFloat.lt]
    · rw [h1]; simp [CFloat.lt, hv]

theorem CFloat.lt_eq_false_of_le (a b : CFloat) (h : CFloat.le a b = true) :
    CFloat.lt b a = false := by
  cases a <;> cases b <;> simp_all [CFloat.le, CFloat.lt]

/-- The fields of the request of a successful run, read off the last pairs. -/
theorem main_ok_fields (c : String) (rest : List String) (now : Int) (r : GenerationRequest)
    (h : main (c :: rest) now = Except.ok r) :
    r.temperature =
        (if CFloat.lt ((Option.map (fun v => toFloat (atof v)) (lastValue 't' rest)).getD
            (CFloat.fin 1)) (CFloat.fin 0)
          then CFloat.fin 0
          else (Option.map (fun v => toFloat (atof v)) (lastValue 't' rest)).getD (CFloat.fin 1)) ∧
      r.topp =
        (if (CFloat.lt ((Option.map (fun v => toFloat (atof v)) (lastValue 'p' rest)).getD
              float_0_9) (CFloat.fin 0) ||
            CFloat.lt (CFloat.fin 1)
              ((Option.map (fun v => toFloat (atof v)) (lastValue 'p' rest)).getD float_0_9))
          then float_0_9
          else (Option.map (fun v => toFloat (atof v)) (lastValue 'p' rest)).getD float_0_9) ∧
      r.steps =
        (if (Option.map atoi (lastValue 'n' rest)).getD 256 < 0 then 0
          else (Option.map atoi (lastValue 'n' rest)).getD 256) ∧
      r.rng_seed =
        (if (Option.map (fun v => toULongLong (atoi v)) (lastValue 's' rest)).getD 0 = 0
          then toUInt now
          else (Option.map (fun v => toULongLong (atoi v)) (lastValue 's' rest)).getD 0) ∧
      r.prompt = (Option.map some (lastValue 'i' rest)).getD none ∧
      r.tokenizer_path = (lastValue 'z' rest).getD "tokenizer.bin" ∧
      r.mode = (lastValue 'm' rest).getD "generate" ∧
      r.system_prompt = (Option.map some (lastValue 'y' rest)).getD none ∧
      r.checkpoint_path = some c := by
  obtain ⟨c1, rest1, he, _, rfl⟩ := main_ok (c :: rest) now r h
  simp only [List.cons.injEq] at he
  obtain ⟨rfl, rfl⟩ := he
  rw [overrides_eq]
  exact ⟨rfl, rfl, rfl, rfl, rfl, rfl, rfl, rfl, rfl⟩

/-! ## The properties -/

/-- C1, the counterexample: the value tokens `nan` of `-t` and of `-p` are
accepted, and leave in the request a temperature, respectively a topp, that
is NaN, for which `0 <= temperature`, `0 <= topp` and `topp <= 1` are all
false. -/
theorem ranges_counterexample :
    main ["model.bin", "-t", "nan"] 1 =
        Except.ok { defaults with
          checkpoint_path := some "model.bin", temperature := CFloat.nan, rng_seed := 1 } ∧
      CFloat.le (CFloat.fin 0) CFloat.nan = false ∧
      main ["model.bin", "-p", "nan"] 1 =
        Except.ok { defaults with
          checkpoint_path := some "model.bin", topp := CFloat.nan, rng_seed := 1 } ∧
      CFloat.le CFloat.nan (CFloat.fin 1) = false := by
  decide!

/-- C1, as amended: on every argument list and clock reading on which `main`
succeeds, `steps >= 0`; the temperature is NaN exactly when the value of the
last `-t` pair parses to NaN, and otherwise `temperature >= 0`; the topp is
NaN exactly when the value of the last `-p` pair parses to NaN, and otherwise
`0 <= topp <= 1`. -/
theorem ranges_unless_nan (argv : List String) (now : Int) (r : GenerationRequest)
    (h : main argv now = Except.ok r) :
    0 ≤ r.steps ∧
      (r.temperature = CFloat.nan ↔
        ∃ v, lastValue 't' argv.tail = some v ∧ atof v = CFloat.nan) ∧
      (r.temperature ≠ CFloat.nan → CFloat.le (CFloat.fin 0) r.temperature = true) ∧
      (r.topp = CFloat.nan ↔
        ∃ v, lastValue 'p' argv.tail = some v ∧ atof v = CFloat.nan) ∧
      (r.topp ≠ CFloat.nan →
        CFloat.le (CFloat.fin 0) r.topp = true ∧ CFloat.le r.topp (CFloat.fin 1) = true) := by
  obtain ⟨c, rest, rfl, _, rfl⟩ := main_ok argv now r h
  have hT : (lastWins rest { defaults with checkpoint_path := some c }).temperature =
      (Option.map (fun v => toFloat (atof v)) (lastValue 't' rest)).getD (CFloat.fin 1) := rfl
  have hP : (lastWins rest { defaults with checkpoint_path := some c }).topp =
      (Option.map (fun v => toFloat (atof v)) (lastValue 'p' rest)).getD float_0_9 := rfl
  have ht : ((Option.map (fun v => toFloat (atof v)) (lastValue 't' rest)).getD (CFloat.fin 1)
      = CFloat.nan ↔ ∃ v, lastValue 't' rest = some v ∧ atof v = CFloat.nan) := by
    cases lastValue 't' rest <;> simp [toFloat_eq_nan_iff]
  have hp : ((Option.map (fun v => toFloat (atof v)) (lastValue 'p' rest)).getD float_0_9
      = CFloat.nan ↔ ∃ v, lastValue 'p' rest = some v ∧ atof v = CFloat.nan) := by
    cases lastValue 'p' rest <;> simp [toFloat_eq_nan_iff, float_0_9_val]
  rw [overrides_eq]
  simp only [List.tail_cons]
  rw [hT, hP]
  generalize (Option.map (fun v => toFloat (atof v)) (lastValue 't' rest)).getD (CFloat.fin 1)
    = t at ht ⊢
  generalize (Option.map (fun v => toFloat (atof v)) (lastValue 'p' rest)).getD float_0_9
    = q at hp ⊢
  refine ⟨?_, ?_, ?_, ?_, ?_⟩
  · split_ifs with h1
    · exact le_refl 0
    · exact not_lt.1 h1
  · exact ((clamp_temperature t).1).trans ht
  · intro hne
    exact (clamp_temperature t).2 (fun hn => hne (((clamp_temperature t).1).2 hn))
  · exact ((reset_topp q).1).trans hp
  · intro hne
    exact (reset_topp q).2 (fun hn => hne (((reset_topp q).1).2 hn))

set_option maxRecDepth 4000 in
/-- C1, the amended statement at `model.bin -t -5 -n -3`: the request has
temperature 0, topp `0.9f` and steps 0. -/
theorem ranges_unless_nan_witness :
    main ["model.bin", "-t", "-5", "-n", "-3"] 7 =
        Except.ok { defaults with
          checkpoint_path := some "model.bin", temperature := CFloat.fin 0, steps := 0,
          rng_seed := 7 } ∧
      (0 : Int) ≤ 0 ∧
      CFloat.le (CFloat.fin 0) (CFloat.fin 0) = true ∧
      CFloat.le (CFloat.fin 0) float_0_9 = true ∧ CFloat.le float_0_9 (CFloat.fin 1) = true :=
  have h := ranges_unless_nan ["model.bin", "-t", "-5", "-n", "-3"] 7
    { defaults with
      checkpoint_path := some "model.bin", temperature := CFloat.fin 0, steps := 0,
      rng_seed := 7 } (by decide!)
  ⟨by decide!, h.1, h.2.2.1 (by decide), h.2.2.2.2 (by decide!)⟩

/-- C2, the counterexample: at the clock reading `2 ^ 33` the conversion
`(unsigned int)time(NULL)` of line 63 gives 0, so `model.bin` alone ends with
seed 0; and at the clock reading `2 ^ 32` the seed supplied by `-s 0` is
replaced by 0 as well.  In both runs the seed is not strictly positive. -/
theorem seed_counterexample :
    main ["model.bin"] 8589934592 =
        Except.ok { defaults with checkpoint_path := some "model.bin", rng_seed := 0 } ∧
      main ["model.bin", "-s", "0"] 4294967296 =
        Except.ok { defaults with checkpoint_path := some "model.bin", rng_seed := 0 } := by
  decide!

/-- C2, as amended: on every argument list on which `main` succeeds, the seed
is strictly positive for every clock reading that is not a multiple of
`2 ^ 32`, and, for every clock reading whatever, when the last `-s` pair
carries a value that `atoi` parses to a non-zero integer (a negative one is
stored as a large unsigned value).  The seed is below `2 ^ 64`. -/
theorem seed_positive (argv : List String) (now : Int) (r : GenerationRequest)
    (h : main argv now = Except.ok r) :
    (now % 2 ^ 32 ≠ 0 → 0 < r.rng_seed) ∧
      (∀ v, lastValue 's' argv.tail = some v → atoi v ≠ 0 → 0 < r.rng_seed) ∧
      r.rng_seed < 2 ^ 64 := by
  obtain ⟨c, rest, rfl, _, rfl⟩ := main_ok argv now r h
  have hS : (lastWins rest { defaults with checkpoint_path := some c }).rng_seed =
      (Option.map (fun v => toULongLong (atoi v)) (lastValue 's' rest)).getD 0 := rfl
  rw [overrides_eq]
  simp only [List.tail_cons]
  rw [hS]
  refine ⟨?_, ?_, ?_⟩
  · intro hnow
    split_ifs with h0
    · exact toUInt_pos now hnow
    · exact Nat.pos_of_ne_zero h0
  · intro v hv hne
    have hpos : 0 < toULongLong (atoi v) :=
      toULongLong_pos (atoi v) hne (atoi_range v).1 (atoi_range v).2
    simp only [hv, Option.map_some', Option.getD_some]
    rw [if_neg (Nat.pos_iff_ne_zero.1 hpos)]
    exact hpos
  · have hb : (Option.map (fun v => toULongLong (atoi v)) (lastValue 's' rest)).getD 0
        < 2 ^ 64 := by
      cases lastValue 's' rest with
      | none => simp
      | some v =>
        simp only [Option.map_some', Option.getD_some, toULongLong]
        omega
    split_ifs with h0
    · unfold toUInt
      omega
    · exact hb

/-- C2, the amended statement at `model.bin -s -5` and the clock reading 0:
the seed is `2 ^ 64 - 5`. -/
theorem seed_positive_witness :
    main ["model.bin", "-s", "-5"] 0 =
        Except.ok { defaults with
          checkpoint_path := some "model.bin", rng_seed := 18446744073709551611 } ∧
      lastValue 's' ["-s", "-5"] = some "-5" ∧ atoi "-5" ≠ 0 ∧
      0 < 18446744073709551611 :=
  have h := seed_positive ["model.bin", "-s", "-5"] 0
    { defaults with checkpoint_path := some "model.bin", rng_seed := 18446744073709551611 }
    (by decide!)
  ⟨by decide!, by decide!, by decide!, h.2.1 "-5" (by decide!) (by decide!)⟩

/-- C3, the counterexample: the argument list whose only token is the empty
string is accepted, and the request has the empty string as checkpoint
path. -/
theorem checkpoint_counterexample :
    main [""] 1 = Except.ok { defaults with checkpoint_path := some "", rng_seed := 1 } ∧
      "".length = 0 := by
  decide!

/-- C3, as amended: on every argument list on which `main` succeeds, the
checkpoint path of the request is the first argument token, whatever that
token is; so it is non-empty exactly when the first token is non-empty. -/
theorem checkpoint_is_first_token (argv : List String) (now : Int) (r : GenerationRequest)
    (h : main argv now = Except.ok r) :
    r.checkpoint_path = argv.head? ∧ argv ≠ [] ∧
      (∀ c, r.checkpoint_path = some c → (c ≠ "" ↔ argv.head? ≠ some "")) := by
  obtain ⟨c, rest, rfl, _, rfl⟩ := main_ok argv now r h
  rw [overrides_eq]
  refine ⟨rfl, List.cons_ne_nil c rest, ?_⟩
  intro c1 hc1
  have hc : some c = some c1 := hc1
  simp only [Option.some.injEq] at hc
  simp [hc]

/-- C3, the amended statement at `model.bin -i hello`. -/
theorem checkpoint_is_first_token_witness :
    main ["model.bin", "-i", "hello"] 3 =
        Except.ok { defaults with
          checkpoint_path := some "model.bin", prompt := some "hello", rng_seed := 3 } ∧
      some "model.bin" = ["model.bin", "-i", "hello"].head? :=
  have h := checkpoint_is_first_token ["model.bin", "-i", "hello"] 3
    { defaults with checkpoint_path := some "model.bin", prompt := some "hello", rng_seed := 3 }
    (by decide!)
  ⟨by decide!, h.1⟩

/-- C4: the empty argument list fails with `MissingCheckpoint`, at line 43,
and produces no request; and as soon as one token is present,
`MissingCheckpoint` is not the outcome, and every request produced has the
first token as its checkpoint path. -/
theorem missing_checkpoint (now : Int) :
    main [] now = Except.error UsageError.MissingCheckpoint ∧
      ∀ (c : String) (rest : List String),
        main (c :: rest) now ≠ Except.error UsageError.MissingCheckpoint ∧
        ∀ r, main (c :: rest) now = Except.ok r → r.checkpoint_path = some c := by
  refine ⟨rfl, fun c rest => ⟨?_, ?_⟩⟩
  · rw [main_cons]
    cases hl : argLoop rest { defaults with checkpoint_path := some c } with
    | error e =>
      simp only [ne_eq, Except.error.injEq]
      exact argLoop_error rest _ e hl
    | ok st => simp
  · intro r hr
    exact main_ok_checkpoint c rest now r hr

/-- C4 at `model.bin -x foo`: the failure is not `MissingCheckpoint`. -/
theorem missing_checkpoint_witness :
    main [] 0 = Except.error UsageError.MissingCheckpoint ∧
      main ["model.bin", "-x", "foo"] 0 ≠ Except.error UsageError.MissingCheckpoint :=
  ⟨(missing_checkpoint 0).1, ((missing_checkpoint 0).2 "model.bin" ["-x", "foo"]).1⟩

/-- C5: after the checkpoint and any number of pairs with recognised flags, a
pair whose flag is a dash followed by one character that is none of `t`, `p`,
`s`, `n`, `i`, `z`, `m`, `y` makes `main` fail at line 60, `UnknownFlag`,
whatever the value token and whatever tokens follow the pair. -/
theorem unknown_flag (c : String) (pre : List String) (x : Char) (v : String)
    (tail : List String) (now : Int) (hpre : goodPairs pre = true) (hx : x ∉ optionLetters) :
    main (c :: (pre ++ flagToken x :: v :: tail)) now =
      Except.error UsageError.UnknownFlag := by
  rw [main_cons, argLoop_append pre _ _ hpre, argLoop, loopBody_unknown x hx]

/-- C5 at `model.bin -x foo`, and at `model.bin -t 0.5 -x foo -n` where a
recognised pair precedes and a lone token follows. -/
theorem unknown_flag_witness :
    goodPairs [] = true ∧ goodPairs ["-t", "0.5"] = true ∧ 'x' ∉ optionLetters ∧
      main ["model.bin", "-x", "foo"] 1 = Except.error UsageError.UnknownFlag ∧
      main ["model.bin", "-t", "0.5", "-x", "foo", "-n"] 1 =
        Except.error UsageError.UnknownFlag :=
  ⟨by decide, by decide, by decide,
    unknown_flag "model.bin" [] 'x' "foo" [] 1 (by decide) (by decide),
    unknown_flag "model.bin" ["-t", "0.5"] 'x' "foo" ["-n"] 1 (by decide) (by decide)⟩

/-- C6: when the checkpoint is followed by an odd number of tokens, `main`
fails and produces no request; and when the tokens before the last one are
pairs with recognised flags, the failure is `MalformedFlag` (line 47),
whatever the text of the lone last token. -/
theorem lone_flag (c : String) (rest : List String) (now : Int)
    (hodd : rest.length % 2 = 1) :
    (∃ e, main (c :: rest) now = Except.error e) ∧
      ∀ pre last, rest = pre ++ [last] → goodPairs pre = true →
        main (c :: rest) now = Except.error UsageError.MalformedFlag := by
  constructor
  · obtain ⟨e, he⟩ := argLoop_odd rest { defaults with checkpoint_path := some c } hodd
    exact ⟨e, by rw [main_cons, he]⟩
  · intro pre last hrest hpre
    rw [hrest, main_cons, argLoop_append pre _ _ hpre]
    rfl

/-- C6 at `model.bin -n 50 -t`: the lone token is a recognised flag, and the
failure is `MalformedFlag`. -/
theorem lone_flag_witness :
    ["-n", "50", "-t"].length % 2 = 1 ∧ goodPairs ["-n", "50"] = true ∧
      main ["model.bin", "-n", "50", "-t"] 1 = Except.error UsageError.MalformedFlag :=
  ⟨by decide, by decide,
    (lone_flag "model.bin" ["-n", "50", "-t"] 1 (by decide)).2 ["-n", "50"] "-t" rfl
      (by decide)⟩

/-- C7, the counterexample: the double-dash token starts with a dash and is
two characters long, so it passes lines 48 and 49 and fails in the dispatch,
at line 60: the failure is `UnknownFlag`, not `MalformedFlag`. -/
theorem double_dash_counterexample :
    main ["model.bin", "--", "foo"] 1 = Except.error UsageError.UnknownFlag ∧
      main ["model.bin", "--", "foo"] 1 ≠ Except.error UsageError.MalformedFlag := by
  decide

/-- C7, as amended: after the checkpoint and any number of pairs with
recognised flags, a flag token whose first character is not a dash, or whose
length is not two, makes `main` fail with `MalformedFlag`, whatever follows;
this covers the empty token, `t`, `-`, `-tt` and `-temp`.  The double-dash
token followed by a value token fails with `UnknownFlag` instead. -/
theorem malformed_flag (c : String) (pre : List String) (flag : String) (rest : List String)
    (now : Int) (hpre : goodPairs pre = true)
    (hbad : charAt flag 0 ≠ '-' ∨ strlen flag ≠ 2) :
    main (c :: (pre ++ flag :: rest)) now = Except.error UsageError.MalformedFlag ∧
      ∀ v tail, main (c :: (pre ++ "--" :: v :: tail)) now =
        Except.error UsageError.UnknownFlag := by
  constructor
  · rw [main_cons, argLoop_append pre _ _ hpre, argLoop_malformed flag rest _ hbad]
  · intro v tail
    rw [main_cons, argLoop_append pre _ _ hpre, argLoop]
    rfl

/-- C7, the amended statement at the five malformed flag tokens of the claim,
each after `model.bin -n 50` and followed by a value token. -/
theorem malformed_flag_witness :
    goodPairs ["-n", "50"] = true ∧
      main ["model.bin", "-n", "50", "", "1"] 1 = Except.error UsageError.MalformedFlag ∧
      main ["model.bin", "-n", "50", "t", "1"] 1 = Except.error UsageError.MalformedFlag ∧
      main ["model.bin", "-n", "50", "-", "1"] 1 = Except.error UsageError.MalformedFlag ∧
      main ["model.bin", "-n", "50", "-tt", "1"] 1 = Except.error UsageError.MalformedFlag ∧
      main ["model.bin", "-n", "50", "-temp", "1"] 1 =
        Except.error UsageError.MalformedFlag :=
  ⟨by decide,
    (malformed_flag "model.bin" ["-n", "50"] "" ["1"] 1 (by decide) (by decide)).1,
    (malformed_flag "model.bin" ["-n", "50"] "t" ["1"] 1 (by decide) (by decide)).1,
    (malformed_flag "model.bin" ["-n", "50"] "-" ["1"] 1 (by decide) (by decide)).1,
    (malformed_flag "model.bin" ["-n", "50"] "-tt" ["1"] 1 (by decide) (by decide)).1,
    (malformed_flag "model.bin" ["-n", "50"] "-temp" ["1"] 1 (by decide) (by decide)).1⟩

/-- C8, the counterexample: at the clock reading `2 ^ 32` the argument list
`model.bin` gives every default of the claim but the seed 0, which is not
positive. -/
theorem single_token_counterexample :
    main ["model.bin"] 4294967296 =
      Except.ok
        { checkpoint_path := some "model.bin", tokenizer_path := "tokenizer.bin",
          temperature := CFloat.fin 1, topp := float_0_9, steps := 256, prompt := none,
          rng_seed := 0, mode := "generate", system_prompt := none } := by
  decide!

/-- C8, as amended: for every argument list of exactly one token `c`, `main`
succeeds with checkpoint path `c`, tokenizer path `tokenizer.bin`,
temperature 1.0, topp `0.9f` (the float nearest to 0.9), steps 256, no
prompt, mode `generate`, no system prompt, and the seed equal to the clock
reading modulo `2 ^ 32`, which is positive unless the clock reading is a
multiple of `2 ^ 32`. -/
theorem single_token (c : String) (now : Int) :
    main [c] now =
        Except.ok
          { checkpoint_path := some c, tokenizer_path := "tokenizer.bin",
            temperature := CFloat.fin 1, topp := float_0_9, steps := 256, prompt := none,
            rng_seed := (now % 2 ^ 32).toNat, mode := "generate", system_prompt := none } ∧
      float_0_9 = CFloat.fin (7549747 / 8388608) ∧
      (now % 2 ^ 32 ≠ 0 → 0 < (now % 2 ^ 32).toNat) := by
  refine ⟨?_, float_0_9_val, toUInt_pos now⟩
  rw [main_cons]
  show Except.ok (overrides now { defaults with checkpoint_path := some c }) = _
  rw [overrides_eq]
  simp [defaults, CFloat.lt, toUInt]

/-- C8, the amended statement at `model.bin` and the clock reading
1700000000. -/
theorem single_token_witness :
    main ["model.bin"] 1700000000 =
        Except.ok
          { checkpoint_path := some "model.bin", tokenizer_path := "tokenizer.bin",
            temperature := CFloat.fin 1, topp := float_0_9, steps := 256, prompt := none,
            rng_seed := 1700000000, mode := "generate", system_prompt := none } ∧
      0 < ((1700000000 : Int) % 2 ^ 32).toNat :=
  ⟨(single_token "model.bin" 1700000000).1, (single_token "model.bin" 1700000000).2.2 (by decide)⟩

/-- C9, the counterexample: in `model.bin -t 0.5 -t 0.8` the value 0.5 is
supplied with `-t` and is in range, yet the temperature of the request is
`0.8f`, the value of the later `-t` pair, and not 0.5. -/
theorem supplied_value_counterexample :
    main ["model.bin", "-t", "0.5", "-t", "0.8"] 1 =
        Except.ok { defaults with
          checkpoint_path := some "model.bin",
          temperature := CFloat.fin (13421773 / 16777216), rng_seed := 1 } ∧
      toFloat (atof "0.5") = CFloat.fin (1 / 2) ∧
      CFloat.le (CFloat.fin 0) (CFloat.fin (1 / 2)) = true ∧
      CFloat.fin (13421773 / 16777216) ≠ CFloat.fin (1 / 2) := by
  decide!

/-- C9, as amended: on every argument list on which `main` succeeds, each
field whose flag heads no pair (in particular, whose flag does not occur in
the list) keeps its default value: tokenizer path `tokenizer.bin`,
temperature 1.0, topp `0.9f`, steps 256, no prompt, mode `generate`, no system
prompt, seed the clock reading modulo `2 ^ 32`; and the value of the last
`-t` pair, when it parses to a value that is at least 0, and the value of
the last `-n` pair, when it parses to an integer that is at least 0, are the
temperature (converted to `float`) and the steps of the request. -/
theorem frame_and_last_value (argv : List String) (now : Int) (r : GenerationRequest)
    (h : main argv now = Except.ok r) :
    (lastValue 'z' argv.tail = none → r.tokenizer_path = "tokenizer.bin") ∧
      (lastValue 't' argv.tail = none → r.temperature = CFloat.fin 1) ∧
      (lastValue 'p' argv.tail = none → r.topp = float_0_9) ∧
      (lastValue 'n' argv.tail = none → r.steps = 256) ∧
      (lastValue 'i' argv.tail = none → r.prompt = none) ∧
      (lastValue 'm' argv.tail = none → r.mode = "generate") ∧
      (lastValue 'y' argv.tail = none → r.system_prompt = none) ∧
      (lastValue 's' argv.tail = none → r.rng_seed = (now % 2 ^ 32).toNat) ∧
      (∀ v, lastValue 't' argv.tail = some v → CFloat.le (CFloat.fin 0) (atof v) = true →
        r.temperature = toFloat (atof v)) ∧
      (∀ v, lastValue 'n' argv.tail = some v → 0 ≤ atoi v → r.steps = atoi v) ∧
      (∀ x, flagToken x ∉ argv.tail → lastValue x argv.tail = none) := by
  obtain ⟨c, rest, rfl, _, rfl⟩ := main_ok argv now r h
  rw [overrides_eq]
  simp only [List.tail_cons]
  refine ⟨?_, ?_, ?_, ?_, ?_, ?_, ?_, ?_, ?_, ?_, ?_⟩
  · intro hn
    show (lastValue 'z' rest).getD "tokenizer.bin" = "tokenizer.bin"
    rw [hn]; rfl
  · intro hn
    show (if CFloat.lt ((Option.map (fun v => toFloat (atof v)) (lastValue 't' rest)).getD
      (CFloat.fin 1)) (CFloat.fin 0) = true then CFloat.fin 0
      else (Option.map (fun v => toFloat (atof v)) (lastValue 't' rest)).getD (CFloat.fin 1))
      = CFloat.fin 1
    rw [hn]
    simp [CFloat.lt]
  · intro hn
    show (if (CFloat.lt ((Option.map (fun v => toFloat (atof v)) (lastValue 'p' rest)).getD
      float_0_9) (CFloat.fin 0) || CFloat.lt (CFloat.fin 1)
      ((Option.map (fun v => toFloat (atof v)) (lastValue 'p' rest)).getD float_0_9)) = true
      then float_0_9
      else (Option.map (fun v => toFloat (atof v)) (lastValue 'p' rest)).getD float_0_9)
      = float_0_9
    rw [hn]
    simp
  · intro hn
    show (if (Option.map atoi (lastValue 'n' rest)).getD 256 < 0 then 0
      else (Option.map atoi (lastValue 'n' rest)).getD 256) = 256
    rw [hn]
    simp
  · intro hn
    show (Option.map some (lastValue 'i' rest)).getD none = none
    rw [hn]; rfl
  · intro hn
    show (lastValue 'm' rest).getD "generate" = "generate"
    rw [hn]; rfl
  · intro hn
    show (Option.map some (lastValue 'y' rest)).getD none = none
    rw [hn]; rfl
  · intro hn
    have hS : (lastWins rest { defaults with checkpoint_path := some c }).rng_seed =
        (Option.map (fun v => toULongLong (atoi v)) (lastValue 's' rest)).getD 0 := rfl
    rw [hS, hn]
    simp [toUInt]
  · intro v hv hge
    show (if CFloat.lt ((Option.map (fun v => toFloat (atof v)) (lastValue 't' rest)).getD
      (CFloat.fin 1)) (CFloat.fin 0) = true then CFloat.fin 0
      else (Option.map (fun v => toFloat (atof v)) (lastValue 't' rest)).getD (CFloat.fin 1))
      = toFloat (atof v)
    rw [hv]
    simp [toFloat_of_nonneg (atof v) hge]
  · intro v hv hge
    show (if (Option.map atoi (lastValue 'n' rest)).getD 256 < 0 then 0
      else (Option.map atoi (lastValue 'n' rest)).getD 256) = atoi v
    rw [hv]
    simp only [Option.map_some', Option.getD_some]
    rw [if_neg (not_lt.2 hge)]
  · intro x hx
    exact lastValue_none_of_not_mem x rest hx

set_option maxRecDepth 4000 in
/-- C9, the amended statement at `model.bin -t 0.8 -n 50` and the clock
reading 1700000000: temperature `0.8f` (the float nearest to 0.8), steps 50,
every other field at its default. -/
theorem frame_and_last_value_witness :
    main ["model.bin", "-t", "0.8", "-n", "50"] 1700000000 =
        Except.ok
          { checkpoint_path := some "model.bin", tokenizer_path := "tokenizer.bin",
            temperature := CFloat.fin (13421773 / 16777216), topp := float_0_9, steps := 50,
            prompt := none, rng_seed := 1700000000, mode := "generate",
            system_prompt := none } ∧
      lastValue 't' ["-t", "0.8", "-n", "50"] = some "0.8" ∧
      CFloat.le (CFloat.fin 0) (atof "0.8") = true ∧
      CFloat.fin (13421773 / 16777216) = toFloat (atof "0.8") ∧
      lastValue 'n' ["-t", "0.8", "-n", "50"] = some "50" ∧ (0 : Int) ≤ atoi "50" ∧
      (50 : Int) = atoi "50" :=
  have h := frame_and_last_value ["model.bin", "-t", "0.8", "-n", "50"] 1700000000
    { checkpoint_path := some "model.bin", tokenizer_path := "tokenizer.bin",
      temperature := CFloat.fin (13421773 / 16777216), topp := float_0_9, steps := 50,
      prompt := none, rng_seed := 1700000000, mode := "generate",
      system_prompt := none } (by decide!)
  ⟨by decide!, by decide!, by decide!,
    h.2.2.2.2.2.2.2.2.1 "0.8" (by decide!) (by decide!), by decide!, by decide!,
    h.2.2.2.2.2.2.2.2.2.1 "50" (by decide!) (by decide!)⟩

/-- C10: on every argument list on which `main` succeeds and whose last `-t`
pair carries a value that parses to a negative number, the temperature of the
request is exactly 0; and the request is, field for field, the one that the
three other overrides produce from the scanned locals, with only the
temperature replaced by 0. -/
theorem negative_temperature_clamped (argv : List String) (now : Int)
    (r : GenerationRequest) (v : String) (h : main argv now = Except.ok r)
    (hv : lastValue 't' argv.tail = some v)
    (hneg : CFloat.lt (atof v) (CFloat.fin 0) = true) :
    r.temperature = CFloat.fin 0 ∧
      ∃ st, argLoop argv.tail { defaults with checkpoint_path := argv.head? } = Except.ok st ∧
        st.temperature = toFloat (atof v) ∧
        r = { stepsRule (toppRule (seedRule now st)) with temperature := CFloat.fin 0 } := by
  obtain ⟨c, rest, rfl, hg, rfl⟩ := main_ok argv now r h
  simp only [List.tail_cons, List.head?_cons] at hv ⊢
  have hT : (lastWins rest { defaults with checkpoint_path := some c }).temperature =
      toFloat (atof v) := by
    show (Option.map (fun v => toFloat (atof v)) (lastValue 't' rest)).getD (CFloat.fin 1) = _
    rw [hv]; rfl
  have hclamp : (if CFloat.lt (toFloat (atof v)) (CFloat.fin 0) = true then CFloat.fin 0
      else toFloat (atof v)) = CFloat.fin 0 := by
    rcases toFloat_of_neg (atof v) hneg with h1 | h1
    · rw [if_pos h1]
    · rw [h1]; simp
  have hr : overrides now (lastWins rest { defaults with checkpoint_path := some c }) =
      { stepsRule (toppRule (seedRule now
          (lastWins rest { defaults with checkpoint_path := some c }))) with
        temperature := CFloat.fin 0 } := by
    rw [overrides_eq, stepsRule_eq, toppRule_eq, seedRule_eq, hT, hclamp]
  refine ⟨?_, lastWins rest { defaults with checkpoint_path := some c },
    argLoop_goodPairs rest _ hg, hT, hr⟩
  rw [hr]

/-- C10 at `model.bin -t -5`: the temperature is 0 and every other field is
at its default (the seed being the clock reading 1700000000). -/
theorem negative_temperature_clamped_witness :
    main ["model.bin", "-t", "-5"] 1700000000 =
        Except.ok
          { checkpoint_path := some "model.bin", tokenizer_path := "tokenizer.bin",
            temperature := CFloat.fin 0, topp := float_0_9, steps := 256, prompt := none,
            rng_seed := 1700000000, mode := "generate", system_prompt := none } ∧
      lastValue 't' ["-t", "-5"] = some "-5" ∧
      CFloat.lt (atof "-5") (CFloat.fin 0) = true ∧
      CFloat.fin 0 = CFloat.fin 0 :=
  have h := negative_temperature_clamped ["model.bin", "-t", "-5"] 1700000000
    { checkpoint_path := some "model.bin", tokenizer_path := "tokenizer.bin",
      temperature := CFloat.fin 0, topp := float_0_9, steps := 256, prompt := none,
      rng_seed := 1700000000, mode := "generate", system_prompt := none } "-5"
    (by decide!) (by decide!) (by decide!)
  ⟨by decide!, by decide!, by decide!, h.1⟩

theorem ilog2_mono (n d : Nat) (h : n ≤ d) : ilog2 n ≤ ilog2 d := by
  rw [ilog2_eq_log2, ilog2_eq_log2, Nat.log2_eq_log_two, Nat.log2_eq_log_two]
  exact Nat.log_mono_right h

theorem binExponent_nonpos (n d : Nat) (h : n ≤ d) : binExponent n d ≤ 0 := by
  have hm := ilog2_mono n d h
  unfold binExponent
  simp only
  split_ifs <;> omega

theorem roundHalfEven_le (a b c : Nat) (hb : 0 < b) (h : a ≤ c * b) :
    roundHalfEven a b ≤ c := by
  have hq : a / b ≤ c := Nat.div_le_of_le_mul (by rw [Nat.mul_comm]; exact h)
  have hm : a = b * (a / b) + a % b := (Nat.div_add_mod a b).symm
  unfold roundHalfEven
  simp only
  rcases Nat.lt_or_ge (a / b) c with hlt | hge
  · split_ifs <;> omega
  · have hqc : a / b = c := Nat.le_antisymm hq hge
    have hr : a % b = 0 := by
      have h2 : b * c + a % b ≤ c * b := by rw [← hqc]; rw [← hm]; rw [hqc]; exact h
      have h3 : b * c = c * b := Nat.mul_comm b c
      omega
    rw [if_pos (by omega)]
    exact hq

/-- Rounding a magnitude of at most one gives a value of at most one. -/
theorem roundNearest_le_one (neg : Bool) (n d : Nat) (h : n ≤ d) :
    CFloat.lt (CFloat.fin 1) (roundNearest 24 (-126) 127 neg n d) = false := by
  by_cases h0 : n = 0 ∨ d = 0
  · simp [roundNearest, h0, CFloat.lt]
  · have hd : 0 < d := by omega
    have he := binExponent_nonpos n d h
    have hs : ¬ (0 : Int) ≤ max (binExponent n d) (-126) - (((24 : Nat) : Int) - 1) := by
      have : max (binExponent n d) (-126) ≤ 0 := max_le he (by norm_num)
      push_cast
      omega
    simp only [roundNearest, h0, if_false, hs]
    generalize (-(max (binExponent n d) (-126) - (((24 : Nat) : Int) - 1))).toNat = k
    have hm : roundHalfEven (n * 2 ^ k) d ≤ 2 ^ k :=
      roundHalfEven_le _ _ _ hd (by rw [Nat.mul_comm]; exact Nat.mul_le_mul_left _ h)
    have hv : mkRat (roundHalfEven (n * 2 ^ k) d : Int) (2 ^ k) ≤ 1 := by
      rw [Rat.mkRat_eq_div]
      have hpos : (0 : ℚ) < ((2 ^ k : Nat) : ℚ) := by positivity
      rw [div_le_one hpos]
      exact_mod_cast hm
    have hv0 : 0 ≤ mkRat (roundHalfEven (n * 2 ^ k) d : Int) (2 ^ k) :=
      Rat.mkRat_nonneg (Int.natCast_nonneg _) _
    have hbig : ¬ (2 : ℚ) ^ ((127 : Int) + 1).toNat ≤
        mkRat (roundHalfEven (n * 2 ^ k) d : Int) (2 ^ k) := by
      intro hc
      have h1 : (1 : ℚ) < 2 ^ ((127 : Int) + 1).toNat := by
        apply one_lt_pow₀ (by norm_num)
        decide
      linarith
    rw [if_neg hbig]
    cases neg
    · simp only [Bool.false_eq_true, if_false, CFloat.lt, decide_eq_false_iff_not, not_lt]
      exact hv
    · simp only [if_true, CFloat.lt, decide_eq_false_iff_not, not_lt]
      linarith

/-- Conversion to `float` of a value that is at most one is at most one. -/
theorem toFloat_le_one (x : CFloat) (h0 : CFloat.le (CFloat.fin 0) x = true)
    (h1 : CFloat.le x (CFloat.fin 1) = true) :
    CFloat.lt (CFloat.fin 1) (toFloat x) = false := by
  cases x with
  | nan => simp [CFloat.le] at h1
  | ninf => simp [CFloat.le] at h0
  | pinf => simp [CFloat.le] at h1
  | fin q =>
    have hq1 : q ≤ 1 := by simpa [CFloat.le] using h1
    have hq0 : 0 ≤ q := by simpa [CFloat.le] using h0
    simp only [toFloat, roundFloat]
    apply roundNearest_le_one
    have hnum : q.num ≤ q.den := by
      have := Rat.num_div_den q
      have hden : (0 : ℚ) < q.den := by exact_mod_cast q.den_pos
      have h2 : (q.num : ℚ) / q.den ≤ 1 := by rw [this]; exact hq1
      rw [div_le_one hden] at h2
      exact_mod_cast h2
    have hn0 : 0 ≤ q.num := Rat.num_nonneg.2 hq0
    omega

/-- When the binary exponent of `n / d` is not negative, `2` to that exponent
is at most `n / d`. -/
theorem binExponent_lower (n d : Nat) (hn : n ≠ 0) (he : 0 ≤ binExponent n d) :
    d * 2 ^ (binExponent n d).toNat ≤ n := by
  have h1 : 2 ^ ilog2 n ≤ n := by rw [ilog2_eq_log2]; exact Nat.log2_self_le hn
  have h2 : d < 2 ^ (ilog2 d + 1) := by rw [ilog2_eq_log2]; exact Nat.lt_log2_self
  unfold binExponent at he ⊢
  simp only at he ⊢
  by_cases h0 : (0 : Int) ≤ (ilog2 n : Int) - (ilog2 d : Int)
  · rw [if_pos h0] at he ⊢
    by_cases hc : d * 2 ^ ((ilog2 n : Int) - (ilog2 d : Int)).toNat ≤ n
    · rw [if_pos hc]
      exact hc
    · rw [if_neg hc] at he ⊢
      have hk : ((ilog2 n : Int) - (ilog2 d : Int) - 1).toNat + (ilog2 d + 1) = ilog2 n := by
        omega
      have h3 : d * 2 ^ ((ilog2 n : Int) - (ilog2 d : Int) - 1).toNat ≤
          2 ^ (ilog2 d + 1) * 2 ^ ((ilog2 n : Int) - (ilog2 d : Int) - 1).toNat :=
        Nat.mul_le_mul_right _ (Nat.le_of_lt h2)
      have h4 : 2 ^ (ilog2 d + 1) * 2 ^ ((ilog2 n : Int) - (ilog2 d : Int) - 1).toNat =
          2 ^ ilog2 n := by
        rw [← Nat.pow_add, Nat.add_comm, hk]
      omega
  · rw [if_neg h0] at he
    split_ifs at he <;> omega

theorem le_roundHalfEven (a b c : Nat) (hb : 0 < b) (h : c * b ≤ a) :
    c ≤ roundHalfEven a b := by
  have hq : c ≤ a / b := (Nat.le_div_iff_mul_le hb).2 h
  unfold roundHalfEven
  simp only
  split_ifs <;> omega

/-- Rounding a magnitude of at least one gives a magnitude of at least one. -/
theorem roundNearest_ge_one (n d : Nat) (hd : 0 < d) (h : d ≤ n) :
    CFloat.lt (CFloat.fin 1) (roundNearest 24 (-126) 127 false n d) = true ∨
      roundNearest 24 (-126) 127 false n d = CFloat.fin 1 := by
  have hn : n ≠ 0 := by omega
  have h0 : ¬ (n = 0 ∨ d = 0) := by omega
  have key : ∀ v : ℚ, 1 ≤ v →
      (CFloat.lt (CFloat.fin 1)
          (if (2 : ℚ) ^ ((127 : Int) + 1).toNat ≤ v then
            (if false = true then CFloat.ninf else CFloat.pinf)
          else CFloat.fin (if false = true then -v else v)) = true ∨
        (if (2 : ℚ) ^ ((127 : Int) + 1).toNat ≤ v then
            (if false = true then CFloat.ninf else CFloat.pinf)
          else CFloat.fin (if false = true then -v else v)) = CFloat.fin 1) := by
    intro v hv
    by_cases hbig : (2 : ℚ) ^ ((127 : Int) + 1).toNat ≤ v
    · left
      rw [if_pos hbig]
      simp [CFloat.lt]
    · rw [if_neg hbig]
      simp only [Bool.false_eq_true, if_false]
      rcases eq_or_lt_of_le hv with h1 | h1
      · right; rw [← h1]
      · left; simp [CFloat.lt, h1]
  simp only [roundNearest, h0, if_false]
  by_cases hs : (0 : Int) ≤ max (binExponent n d) (-126) - (((24 : Nat) : Int) - 1)
  · simp only [hs, if_true]
    apply key
    have he : 0 ≤ binExponent n d := by
      rcases le_total (binExponent n d) (-126) with hle | hle
      · rw [max_eq_right hle] at hs
        norm_num at hs
      · rw [max_eq_left hle] at hs
        push_cast at hs
        omega
    have hmax : max (binExponent n d) (-126) = binExponent n d :=
      max_eq_left (by omega)
    rw [hmax] at hs ⊢
    have hlow := binExponent_lower n d hn he
    have hpow : 2 ^ (binExponent n d - (((24 : Nat) : Int) - 1)).toNat ≤
        2 ^ (binExponent n d).toNat :=
      Nat.pow_le_pow_right (by norm_num) (by push_cast at hs ⊢; omega)
    have hm : 1 ≤ roundHalfEven n (d * 2 ^ (binExponent n d - (((24 : Nat) : Int) - 1)).toNat) := by
      apply le_roundHalfEven
      · exact Nat.mul_pos hd (Nat.two_pow_pos _)
      · rw [Nat.one_mul]
        exact le_trans (Nat.mul_le_mul_left d hpow) hlow
    have hp : 1 ≤ 2 ^ (binExponent n d - (((24 : Nat) : Int) - 1)).toNat :=
      Nat.one_le_two_pow
    have : 1 ≤ roundHalfEven n (d * 2 ^ (binExponent n d - (((24 : Nat) : Int) - 1)).toNat) *
        2 ^ (binExponent n d - (((24 : Nat) : Int) - 1)).toNat := Nat.mul_le_mul hm hp
    exact_mod_cast this
  · simp only [hs, if_false]
    apply key
    generalize (-(max (binExponent n d) (-126) - (((24 : Nat) : Int) - 1))).toNat = k
    have hm : 2 ^ k ≤ roundHalfEven (n * 2 ^ k) d :=
      le_roundHalfEven _ _ _ hd (by rw [Nat.mul_comm]; exact Nat.mul_le_mul_right _ h)
    rw [Rat.mkRat_eq_div]
    have hpos : (0 : ℚ) < ((2 ^ k : Nat) : ℚ) := by positivity
    rw [one_le_div hpos]
    exact_mod_cast hm

/-- Conversion to `float` of a value above one is above one or exactly one. -/
theorem toFloat_of_gt_one (x : CFloat) (h : CFloat.lt (CFloat.fin 1) x = true) :
    CFloat.lt (CFloat.fin 1) (toFloat x) = true ∨ toFloat x = CFloat.fin 1 := by
  cases x with
  | nan => simp [CFloat.lt] at h
  | ninf => simp [CFloat.lt] at h
  | pinf => left; simp [toFloat, CFloat.lt]
  | fin q =>
    have hq : 1 < q := by simpa [CFloat.lt] using h
    have hneg : ¬ q < 0 := by linarith
    simp only [toFloat, roundFloat, hneg, decide_False]
    apply roundNearest_ge_one _ _ q.den_pos
    have hnum : (q.den : Int) ≤ q.num := by
      have := Rat.num_div_den q
      have hden : (0 : ℚ) < q.den := by exact_mod_cast q.den_pos
      have h2 : 1 ≤ (q.num : ℚ) / q.den := by rw [this]; exact le_of_lt hq
      rw [one_le_div hden] at h2
      exact_mod_cast h2
    omega

/-- C11, the counterexample: the token `1.00000001` carries a value above 1,
yet its nearest float is exactly 1, which line 65 keeps, so the topp is 1 and
not the default `0.9f`; and the token `-1e-50` carries a value below 0, yet
its nearest float is 0, so the topp is 0 and not the default. -/
theorem topp_rounding_counterexample :
    CFloat.lt (CFloat.fin 1) (atof "1.00000001") = true ∧
      main ["model.bin", "-p", "1.00000001"] 1700000000 =
        Except.ok { defaults with
          checkpoint_path := some "model.bin", topp := CFloat.fin 1, rng_seed := 1700000000 } ∧
      CFloat.lt (atof "-1e-50") (CFloat.fin 0) = true ∧
      main ["model.bin", "-p", "-1e-50"] 1700000000 =
        Except.ok { defaults with
          checkpoint_path := some "model.bin", topp := CFloat.fin 0, rng_seed := 1700000000 } ∧
      float_0_9 ≠ CFloat.fin 1 ∧ float_0_9 ≠ CFloat.fin 0 := by
  decide!

/-- C11, as amended: on every argument list on which `main` succeeds and
whose last `-p` pair carries the token `s`, let `v = atof s` be the value the
pair carries and `f` the float that line 53 stores, `v` converted to `float`.
If `0 <= v <= 1`, the bounds included, the topp of the request is `f`.  If
`v < 0`, the topp is the default `0.9f` (the float nearest to 0.9), not the
nearest bound, unless `v` rounds to the float 0, and then the topp is 0.  If
`1 < v`, the topp is the default `0.9f`, unless `v` rounds to the float 1,
and then the topp is 1.  In terms of `f`: when `f < 0` or `1 < f` the topp
is `0.9f`, and when `0 <= f <= 1` it is `f`. -/
theorem topp_reset_or_kept (argv : List String) (now : Int) (r : GenerationRequest)
    (s : String) (h : main argv now = Except.ok r)
    (hs : lastValue 'p' argv.tail = some s) :
    ((CFloat.lt (toFloat (atof s)) (CFloat.fin 0) = true ∨
        CFloat.lt (CFloat.fin 1) (toFloat (atof s)) = true) → r.topp = float_0_9) ∧
      ((CFloat.le (CFloat.fin 0) (toFloat (atof s)) = true ∧
        CFloat.le (toFloat (atof s)) (CFloat.fin 1) = true) → r.topp = toFloat (atof s)) ∧
      float_0_9 = CFloat.fin (7549747 / 8388608) ∧
      ((CFloat.le (CFloat.fin 0) (atof s) = true ∧ CFloat.le (atof s) (CFloat.fin 1) = true) →
        r.topp = toFloat (atof s)) ∧
      (CFloat.lt (atof s) (CFloat.fin 0) = true →
        r.topp = float_0_9 ∨ (toFloat (atof s) = CFloat.fin 0 ∧ r.topp = CFloat.fin 0)) ∧
      (CFloat.lt (CFloat.fin 1) (atof s) = true →
        r.topp = float_0_9 ∨ (toFloat (atof s) = CFloat.fin 1 ∧ r.topp = CFloat.fin 1)) := by
  obtain ⟨c, rest, rfl, _, _⟩ := main_ok argv now r h
  simp only [List.tail_cons] at hs
  have hf := (main_ok_fields c rest now r h).2.1
  rw [hs] at hf
  simp only [Option.map_some', Option.getD_some] at hf
  have hout : (CFloat.lt (toFloat (atof s)) (CFloat.fin 0) = true ∨
      CFloat.lt (CFloat.fin 1) (toFloat (atof s)) = true) → r.topp = float_0_9 := by
    intro hout
    rw [hf, if_pos]
    rcases hout with h1 | h1 <;> simp [h1]
  have hkeep : CFloat.lt (toFloat (atof s)) (CFloat.fin 0) = false →
      CFloat.lt (CFloat.fin 1) (toFloat (atof s)) = false → r.topp = toFloat (atof s) := by
    intro h1 h2
    rw [hf, if_neg]
    simp [h1, h2]
  refine ⟨hout, ?_, float_0_9_val, ?_, ?_, ?_⟩
  · intro hin
    exact hkeep (CFloat.lt_eq_false_of_le _ _ hin.1) (CFloat.lt_eq_false_of_le _ _ hin.2)
  · intro hin
    exact hkeep (toFloat_of_nonneg _ hin.1) (toFloat_le_one _ hin.1 hin.2)
  · intro hneg
    rcases toFloat_of_neg (atof s) hneg with h1 | h1
    · exact Or.inl (hout (Or.inl h1))
    · right
      refine ⟨h1, ?_⟩
      have hk := hkeep (by rw [h1]; simp [CFloat.lt]) (by rw [h1]; simp [CFloat.lt])
      rw [hk, h1]
  · intro hgt
    rcases toFloat_of_gt_one (atof s) hgt with h1 | h1
    · exact Or.inl (hout (Or.inr h1))
    · right
      refine ⟨h1, ?_⟩
      have hk := hkeep (by rw [h1]; simp [CFloat.lt]) (by rw [h1]; simp [CFloat.lt])
      rw [hk, h1]

/-- C11, the amended statement at `model.bin -p 2.0`, where the topp is
`0.9f`, at the two bounds, `-p 1` and `-p 0`, where the topp is 1 and 0, and
at `-p 0.5`, where it is 0.5. -/
theorem topp_reset_or_kept_witness :
    main ["model.bin", "-p", "2.0"] 1700000000 =
        Except.ok
          { checkpoint_path := some "model.bin", tokenizer_path := "tokenizer.bin",
            temperature := CFloat.fin 1, topp := float_0_9, steps := 256, prompt := none,
            rng_seed := 1700000000, mode := "generate", system_prompt := none } ∧
      CFloat.lt (CFloat.fin 1) (atof "2.0") = true ∧
      main ["model.bin", "-p", "1"] 1700000000 =
        Except.ok { defaults with
          checkpoint_path := some "model.bin", topp := CFloat.fin 1, rng_seed := 1700000000 } ∧
      CFloat.fin 1 = toFloat (atof "1") ∧
      main ["model.bin", "-p", "0"] 1700000000 =
        Except.ok { defaults with
          checkpoint_path := some "model.bin", topp := CFloat.fin 0, rng_seed := 1700000000 } ∧
      CFloat.fin 0 = toFloat (atof "0") ∧
      main ["model.bin", "-p", "0.5"] 1700000000 =
        Except.ok { defaults with
          checkpoint_path := some "model.bin", topp := CFloat.fin (1 / 2),
          rng_seed := 1700000000 } ∧
      CFloat.fin (1 / 2) = toFloat (atof "0.5") :=
  have h1 := topp_reset_or_kept ["model.bin", "-p", "1"] 1700000000
    { defaults with
      checkpoint_path := some "model.bin", topp := CFloat.fin 1, rng_seed := 1700000000 } "1"
    (by decide!) (by decide!)
  have h0 := topp_reset_or_kept ["model.bin", "-p", "0"] 1700000000
    { defaults with
      checkpoint_path := some "model.bin", topp := CFloat.fin 0, rng_seed := 1700000000 } "0"
    (by decide!) (by decide!)
  have h5 := topp_reset_or_kept ["model.bin", "-p", "0.5"] 1700000000
    { defaults with
      checkpoint_path := some "model.bin", topp := CFloat.fin (1 / 2),
      rng_seed := 1700000000 } "0.5"
    (by decide!) (by decide!)
  ⟨by decide!, by decide!, by decide!, h1.2.1 ⟨by decide!, by decide!⟩, by decide!,
    h0.2.1 ⟨by decide!, by decide!⟩, by decide!, h5.2.2.2.1 ⟨by decide!, by decide!⟩⟩

/-- C12: on every argument list on which `main` succeeds and whose last `-n`
pair carries the token `s`, with `n` the integer that `atoi` reads from it:
if `n < 0` the steps of the request is 0, and if `n >= 0` it is `n`; so
`-n 0` gives steps 0, not the default 256. -/
theorem steps_clamped_or_kept (argv : List String) (now : Int) (r : GenerationRequest)
    (s : String) (h : main argv now = Except.ok r)
    (hs : lastValue 'n' argv.tail = some s) :
    (atoi s < 0 → r.steps = 0) ∧ (0 ≤ atoi s → r.steps = atoi s) ∧
      (atoi s = 0 → r.steps = 0) := by
  obtain ⟨c, rest, rfl, _, _⟩ := main_ok argv now r h
  simp only [List.tail_cons] at hs
  have hf := (main_ok_fields c rest now r h).2.2.1
  rw [hs] at hf
  simp only [Option.map_some', Option.getD_some] at hf
  refine ⟨?_, ?_, ?_⟩
  · intro hneg
    rw [hf, if_pos hneg]
  · intro hge
    rw [hf, if_neg (not_lt.2 hge)]
  · intro h0
    rw [hf, h0]
    rfl

/-- C12 at `model.bin -n 0` and `model.bin -n -7`, where the steps is 0, and
at `model.bin -n 12`, where it is 12. -/
theorem steps_clamped_or_kept_witness :
    main ["model.bin", "-n", "0"] 1700000000 =
        Except.ok { defaults with
          checkpoint_path := some "model.bin", steps := 0, rng_seed := 1700000000 } ∧
      atoi "0" = 0 ∧
      main ["model.bin", "-n", "-7"] 1700000000 =
        Except.ok { defaults with
          checkpoint_path := some "model.bin", steps := 0, rng_seed := 1700000000 } ∧
      atoi "-7" < 0 ∧
      main ["model.bin", "-n", "12"] 1700000000 =
        Except.ok { defaults with
          checkpoint_path := some "model.bin", steps := 12, rng_seed := 1700000000 } ∧
      (12 : Int) = atoi "12" :=
  have h := steps_clamped_or_kept ["model.bin", "-n", "12"] 1700000000
    { defaults with
      checkpoint_path := some "model.bin", steps := 12, rng_seed := 1700000000 } "12"
    (by decide!) (by decide!)
  ⟨by decide!, by decide!, by decide!, by decide!, by decide!, h.2.1 (by decide!)⟩

/-- C13, what the code does: on every argument list on which `main` succeeds
and whose last `-s` pair carries the token `s`, with `n` the integer that
`atoi` reads from it: if `n = 0` the seed is the clock reading modulo
`2 ^ 32`; if `n > 0` the seed is `n`; and if `n < 0` the seed is
`2 ^ 64 + n`, the conversion of `n` to `unsigned long long`, which the test
`rng_seed <= 0` of line 63 does not catch, so it is not replaced by the
time-derived value. -/
theorem seed_from_last_value (argv : List String) (now : Int) (r : GenerationRequest)
    (s : String) (h : main argv now = Except.ok r)
    (hs : lastValue 's' argv.tail = some s) :
    (atoi s = 0 → r.rng_seed = (now % 2 ^ 32).toNat) ∧
      (0 < atoi s → (r.rng_seed : Int) = atoi s) ∧
      (atoi s < 0 → (r.rng_seed : Int) = 2 ^ 64 + atoi s) := by
  obtain ⟨c, rest, rfl, _, _⟩ := main_ok argv now r h
  simp only [List.tail_cons] at hs
  have hf := (main_ok_fields c rest now r h).2.2.2.1
  rw [hs] at hf
  simp only [Option.map_some', Option.getD_some] at hf
  have hr := atoi_range s
  refine ⟨?_, ?_, ?_⟩
  · intro h0
    rw [hf, h0]
    rfl
  · intro hpos
    have hne : toULongLong (atoi s) ≠ 0 :=
      Nat.pos_iff_ne_zero.1 (toULongLong_pos (atoi s) (by omega) hr.1 hr.2)
    rw [hf, if_neg hne]
    unfold toULongLong
    omega
  · intro hneg
    have hne : toULongLong (atoi s) ≠ 0 :=
      Nat.pos_iff_ne_zero.1 (toULongLong_pos (atoi s) (by omega) hr.1 hr.2)
    rw [hf, if_neg hne]
    unfold toULongLong
    omega

/-- C13 at the failing input `model.bin -s -5` with the clock reading
1700000000: `atoi` reads -5, and the seed of the request is
`2 ^ 64 - 5 = 18446744073709551611`, not the time-derived value
1700000000. -/
theorem seed_from_last_value_witness :
    main ["model.bin", "-s", "-5"] 1700000000 =
        Except.ok { defaults with
          checkpoint_path := some "model.bin", rng_seed := 18446744073709551611 } ∧
      atoi "-5" = -5 ∧ toUInt 1700000000 = 1700000000 ∧
      ((18446744073709551611 : Nat) : Int) = 2 ^ 64 + atoi "-5" :=
  have h := seed_from_last_value ["model.bin", "-s", "-5"] 1700000000
    { defaults with
      checkpoint_path := some "model.bin", rng_seed := 18446744073709551611 } "-5"
    (by decide!) (by decide!)
  ⟨by decide!, by decide!, by decide!, h.2.2 (by decide!)⟩

/-- A second clamp of line 64 changes nothing. -/
theorem clamp_temperature_idem (t : CFloat) :
    (if CFloat.lt (if CFloat.lt t (CFloat.fin 0) then CFloat.fin 0 else t) (CFloat.fin 0)
      then CFloat.fin 0
      else (if CFloat.lt t (CFloat.fin 0) then CFloat.fin 0 else t)) =
      (if CFloat.lt t (CFloat.fin 0) then CFloat.fin 0 else t) := by
  by_cases h : CFloat.lt t (CFloat.fin 0) = true
  · rw [if_pos h, ite_self]
  · rw [if_neg h, if_neg h]

/-- A second reset of line 65 changes nothing. -/
theorem reset_topp_idem (t : CFloat) :
    (if (CFloat.lt
            (if (CFloat.lt t (CFloat.fin 0) || CFloat.lt (CFloat.fin 1) t) then float_0_9 else t)
            (CFloat.fin 0) ||
          CFloat.lt (CFloat.fin 1)
            (if (CFloat.lt t (CFloat.fin 0) || CFloat.lt (CFloat.fin 1) t) then float_0_9 else t))
      then float_0_9
      else (if (CFloat.lt t (CFloat.fin 0) || CFloat.lt (CFloat.fin 1) t) then float_0_9 else t)) =
      (if (CFloat.lt t (CFloat.fin 0) || CFloat.lt (CFloat.fin 1) t) then float_0_9 else t) := by
  by_cases h : (CFloat.lt t (CFloat.fin 0) || CFloat.lt (CFloat.fin 1) t) = true
  · rw [if_pos h, ite_self]
  · rw [if_neg h, if_neg h]

/-- A second clamp of line 66 changes nothing. -/
theorem clamp_steps_idem (n : Int) :
    (if (if n < 0 then 0 else n) < 0 then 0 else (if n < 0 then 0 else n)) =
      (if n < 0 then 0 else n) := by
  by_cases h : n < 0
  · rw [if_pos h, ite_self]
  · rw [if_neg h, if_neg h]

/-- A second defaulting of the seed changes nothing when the clock reading
is the same or the seed is already non-zero. -/
theorem default_seed_idem (now later : Int) (s : Nat)
    (h : later = now ∨ (if s = 0 then toUInt now else s) ≠ 0) :
    (if (if s = 0 then toUInt now else s) = 0 then toUInt later
      else (if s = 0 then toUInt now else s)) =
      (if s = 0 then toUInt now else s) := by
  rcases h with h | h
  · subst h
    by_cases h0 : (if s = 0 then toUInt later else s) = 0
    · rw [if_pos h0]
      by_cases hs : s = 0
      · rw [if_pos hs]
      · rw [if_neg hs] at h0
        exact absurd h0 hs
    · rw [if_neg h0]
  · rw [if_neg h]

theorem overrides_twice (now later : Int) (r : GenerationRequest)
    (h : later = now ∨ (overrides now r).rng_seed ≠ 0) :
    overrides later (overrides now r) = overrides now r := by
  have hs : (overrides now r).rng_seed = (if r.rng_seed = 0 then toUInt now else r.rng_seed) := by
    rw [overrides_eq]
  rw [hs] at h
  rw [overrides_eq later, overrides_eq now]
  simp only [clamp_temperature_idem, reset_topp_idem, clamp_steps_idem,
    default_seed_idem now later r.rng_seed h]

/-- C14: the overrides of lines 63-66 are idempotent.  For every request,
whatever its seed, temperature, topp and steps, and every clock reading,
applying the four rules to the already normalised request gives the same
request.  The same holds when the second application reads a later clock,
provided the seed after the first application is not 0. -/
theorem overrides_idempotent (now : Int) (r : GenerationRequest) :
    overrides now (overrides now r) = overrides now r ∧
      ∀ later : Int, (overrides now r).rng_seed ≠ 0 →
        overrides later (overrides now r) = overrides now r :=
  ⟨overrides_twice now now r (Or.inl rfl), fun later h => overrides_twice now later r (Or.inr h)⟩

/-- C14 at a request with seed 0, temperature -5, topp 2 and steps -3, and
the clock reading 1700000000. -/
theorem overrides_idempotent_witness :
    overrides 1700000000 { defaults with
        temperature := CFloat.fin (-5), topp := CFloat.fin 2, steps := -3 } =
      { defaults with temperature := CFloat.fin 0, steps := 0, rng_seed := 1700000000 } ∧
    overrides 1700000000
      (overrides 1700000000 { defaults with
        temperature := CFloat.fin (-5), topp := CFloat.fin 2, steps := -3 }) =
      overrides 1700000000 { defaults with
        temperature := CFloat.fin (-5), topp := CFloat.fin 2, steps := -3 } :=
  ⟨by decide!, (overrides_idempotent 1700000000 { defaults with
      temperature := CFloat.fin (-5), topp := CFloat.fin 2, steps := -3 }).1⟩

/-- Any two of the four overrides commute. -/
theorem rules_commute (now : Int) (f g : GenerationRequest → GenerationRequest)
    (hf : f ∈ sourceRules now) (hg : g ∈ sourceRules now) (st : GenerationRequest) :
    g (f st) = f (g st) := by
  simp only [sourceRules, List.mem_cons, List.mem_singleton, List.not_mem_nil, or_false] at hf hg
  rcases hf with rfl | rfl | rfl | rfl <;> rcases hg with rfl | rfl | rfl | rfl <;>
    first
    | rfl
    | (simp only [seedRule_eq, temperatureRule_eq, toppRule_eq, stepsRule_eq])

/-- C15: the four overrides are independent.  Each one is an update of its
own field by a value computed from that field alone (and, for the seed, the
clock reading), so that applying the four rules in any order, that is in any
permutation of the source order, gives the same request as `overrides`. -/
theorem rules_any_order (now : Int) (r : GenerationRequest)
    (rules : List (GenerationRequest → GenerationRequest))
    (hperm : List.Perm rules (sourceRules now)) :
    applyRules rules r = overrides now r ∧
      (∀ st, seedRule now st =
        { st with rng_seed := if st.rng_seed = 0 then toUInt now else st.rng_seed }) ∧
      (∀ st, temperatureRule st =
        { st with temperature :=
            if CFloat.lt st.temperature (CFloat.fin 0) then CFloat.fin 0 else st.temperature }) ∧
      (∀ st, toppRule st =
        { st with topp :=
            if (CFloat.lt st.topp (CFloat.fin 0) || CFloat.lt (CFloat.fin 1) st.topp)
            then float_0_9 else st.topp }) ∧
      (∀ st, stepsRule st = { st with steps := if st.steps < 0 then 0 else st.steps }) := by
  refine ⟨?_, seedRule_eq now, temperatureRule_eq, toppRule_eq, stepsRule_eq⟩
  unfold applyRules
  rw [List.Perm.foldl_eq' hperm
    (fun x hx y hy z =>
      rules_commute now x y (hperm.mem_iff.1 hx) (hperm.mem_iff.1 hy) z) r]
  rfl

/-- C15 at the reverse of the source order, on a request with seed 0,
temperature -5, topp 2 and steps -3. -/
theorem rules_any_order_witness :
    applyRules [stepsRule, toppRule, temperatureRule, seedRule 1700000000]
        { defaults with temperature := CFloat.fin (-5), topp := CFloat.fin 2, steps := -3 } =
      overrides 1700000000
        { defaults with temperature := CFloat.fin (-5), topp := CFloat.fin 2, steps := -3 } :=
  (rules_any_order 1700000000
    { defaults with temperature := CFloat.fin (-5), topp := CFloat.fin 2, steps := -3 }
    [stepsRule, toppRule, temperatureRule, seedRule 1700000000]
    (List.reverse_perm (sourceRules 1700000000))).1

theorem goodPairs_append (a : List String) :
    ∀ b : List String, goodPairs a = true → goodPairs b = true → goodPairs (a ++ b) = true := by
  induction a using pairs_induction with
  | h0 => intro b _ hb; exact hb
  | h1 x => intro b ha _; simp [goodPairs] at ha
  | h2 flag value rest ih =>
    intro b ha hb
    simp only [goodPairs, Bool.and_eq_true] at ha
    simp only [List.cons_append, goodPairs, Bool.and_eq_true]
    exact ⟨ha.1, ih b ha.2 hb⟩

/-- A pair with a recognised flag appended to a successful argument list:
the run succeeds, and the request is the overrides applied to the locals of
the shorter scan after the assignment of the pair. -/
theorem main_append_pair (argv : List String) (now : Int) (r : GenerationRequest)
    (h : main argv now = Except.ok r) (x : Char) (hx : x ∈ optionLetters) (v : String) :
    ∃ c rest, argv = c :: rest ∧
      main (argv ++ [flagToken x, v]) now =
        Except.ok (overrides now
          (store x v (lastWins rest { defaults with checkpoint_path := some c }))) := by
  obtain ⟨c, rest, rfl, hg, _⟩ := main_ok argv now r h
  refine ⟨c, rest, rfl, ?_⟩
  rw [List.cons_append, main_cons, argLoop_append rest _ _ hg, argLoop,
    loopBody_flagToken x hx]
  rfl

/-- C16: on every argument list on which `main` succeeds, the value token `v`
of the last `-i`, `-z`, `-m` or `-y` pair is, unchanged, the prompt, the
tokenizer path, the mode or the system prompt of the request; and for every
string `v` whatever, appending such a pair to the argument list gives a run
that succeeds with that field equal to `v`. -/
theorem strings_verbatim (argv : List String) (now : Int) (r : GenerationRequest)
    (h : main argv now = Except.ok r) :
    (∀ v, lastValue 'i' argv.tail = some v → r.prompt = some v) ∧
      (∀ v, lastValue 'z' argv.tail = some v → r.tokenizer_path = v) ∧
      (∀ v, lastValue 'm' argv.tail = some v → r.mode = v) ∧
      (∀ v, lastValue 'y' argv.tail = some v → r.system_prompt = some v) ∧
      (∀ v, ∃ r1, main (argv ++ ["-i", v]) now = Except.ok r1 ∧ r1.prompt = some v) ∧
      (∀ v, ∃ r1, main (argv ++ ["-z", v]) now = Except.ok r1 ∧ r1.tokenizer_path = v) ∧
      (∀ v, ∃ r1, main (argv ++ ["-m", v]) now = Except.ok r1 ∧ r1.mode = v) ∧
      (∀ v, ∃ r1, main (argv ++ ["-y", v]) now = Except.ok r1 ∧
        r1.system_prompt = some v) := by
  obtain ⟨c, rest, rfl, _, _⟩ := main_ok argv now r h
  obtain ⟨_, _, _, _, hi, hz, hm, hy, _⟩ := main_ok_fields c rest now r h
  simp only [List.tail_cons]
  refine ⟨?_, ?_, ?_, ?_, ?_, ?_, ?_, ?_⟩
  · intro v hv; rw [hi, hv]; rfl
  · intro v hv; rw [hz, hv]; rfl
  · intro v hv; rw [hm, hv]; rfl
  · intro v hv; rw [hy, hv]; rfl
  · intro v
    obtain ⟨c1, rest1, _, h1⟩ := main_append_pair (c :: rest) now r h 'i' (by decide) v
    exact ⟨_, h1, by rw [overrides_eq]; rfl⟩
  · intro v
    obtain ⟨c1, rest1, _, h1⟩ := main_append_pair (c :: rest) now r h 'z' (by decide) v
    exact ⟨_, h1, by rw [overrides_eq]; rfl⟩
  · intro v
    obtain ⟨c1, rest1, _, h1⟩ := main_append_pair (c :: rest) now r h 'm' (by decide) v
    exact ⟨_, h1, by rw [overrides_eq]; rfl⟩
  · intro v
    obtain ⟨c1, rest1, _, h1⟩ := main_append_pair (c :: rest) now r h 'y' (by decide) v
    exact ⟨_, h1, by rw [overrides_eq]; rfl⟩

/-- C16 at `model.bin -m story`, a mode other than `generate` and `chat`,
then with the pair `-i ""` (the empty string) or `-z -t` (a string that
starts with a dash) appended. -/
theorem strings_verbatim_witness :
    main ["model.bin", "-m", "story"] 1700000000 =
        Except.ok { defaults with
          checkpoint_path := some "model.bin", mode := "story", rng_seed := 1700000000 } ∧
      lastValue 'm' ["-m", "story"] = some "story" ∧
      (∃ r1, main ["model.bin", "-m", "story", "-i", ""] 1700000000 = Except.ok r1 ∧
        r1.prompt = some "") ∧
      (∃ r1, main ["model.bin", "-m", "story", "-z", "-t"] 1700000000 = Except.ok r1 ∧
        r1.tokenizer_path = "-t") :=
  have h := strings_verbatim ["model.bin", "-m", "story"] 1700000000
    { defaults with
      checkpoint_path := some "model.bin", mode := "story", rng_seed := 1700000000 }
    (by decide!)
  ⟨by decide!, by decide, h.2.2.2.2.1 "", h.2.2.2.2.2.1 "-t"⟩

theorem readDigits_none (base : Nat) (c : Char) (cs : List Char) (acc : Nat)
    (h : digitVal c = none) :
    readDigits digitVal base (c :: cs) acc 0 = (acc, 0, c :: cs) := by
  rw [readDigits, h]

/-- What `noNumericPrefix` says of the text after white space and sign. -/
theorem noNumericPrefix_cases (s : String) (h : noNumericPrefix s = true) :
    afterSign s = [] ∨
      ∃ c cs, afterSign s = c :: cs ∧ digitVal c = none ∧
        (c = '.' → cs = [] ∨ ∃ d ds, cs = d :: ds ∧ digitVal d = none) := by
  unfold noNumericPrefix at h
  cases hrest : afterSign s with
  | nil => exact Or.inl rfl
  | cons c cs =>
    right
    rw [hrest] at h
    simp only at h
    cases hc : digitVal c with
    | some v => simp [hc] at h
    | none =>
      refine ⟨c, cs, rfl, hc, ?_⟩
      intro hdot
      cases cs with
      | nil => exact Or.inl rfl
      | cons d ds =>
        right
        refine ⟨d, ds, rfl, ?_⟩
        rw [hc] at h
        simp only [Option.isSome_none, Bool.false_eq_true, if_false, hdot, if_true,
          Option.isNone_iff_eq_none] at h
        exact h

theorem readMagnitude_none (rest : List Char)
    (h : rest = [] ∨
      ∃ c cs, rest = c :: cs ∧ digitVal c = none ∧
        (c = '.' → cs = [] ∨ ∃ d ds, cs = d :: ds ∧ digitVal d = none)) :
    readMagnitude rest = none := by
  rcases h with rfl | ⟨c, cs, rfl, hc, hdot⟩
  · rfl
  · have h0 : c ≠ '0' := by
      intro e
      rw [e] at hc
      exact absurd hc (by decide)
    have hdec : readMantissa digitVal 10 (c :: cs) = (0, 0, 0, c :: cs) := by
      unfold readMantissa
      rw [readDigits_none 10 c cs 0 hc]
      simp only
      split
      · rename_i rest1 heq
        simp only [List.cons.injEq] at heq
        obtain ⟨hd, rfl⟩ := heq
        rcases hdot hd with rfl | ⟨d, ds, rfl, hdd⟩
        · rfl
        · rw [readDigits_none 10 d ds 0 hdd]
          rfl
      · rfl
    unfold readMagnitude
    simp only
    split
    · rename_i r heq
      split at heq
      · rename_i x rest heq2
        simp only [List.cons.injEq] at heq2
        exact absurd heq2.1 h0
      · cases heq
    · rw [hdec]
      rfl
/-- On a token with no numeric prefix that does not start with `inf` or
`nan`, `atof` finds no number and returns 0. -/
theorem atof_noNumericPrefix (s : String) (h : noNumericPrefix s = true)
    (hw : startsInfNan s = false) : atof s = CFloat.fin 0 := by
  have hm := readMagnitude_none (afterSign s) (noNumericPrefix_cases s h)
  unfold startsInfNan at hw
  simp only [Bool.or_eq_false_iff] at hw
  unfold afterSign at hm hw
  unfold atof
  simp only
  rw [hw.1, hw.2, hm]
  rfl

theorem wrapInt_clamp_zero : wrapInt (max (-(2 ^ 63)) (min (2 ^ 63 - 1) 0)) = 0 := by
  decide

/-- On a token with no numeric prefix, `atoi` finds no digit and returns 0. -/
theorem atoi_noNumericPrefix (s : String) (h : noNumericPrefix s = true) : atoi s = 0 := by
  have hc := noNumericPrefix_cases s h
  unfold afterSign at hc
  have hd : readDigits digitVal 10 (readSign (List.dropWhile isspace s.data)).2 0 0 =
      (0, 0, (readSign (List.dropWhile isspace s.data)).2) := by
    rcases hc with h0 | ⟨c, cs, h0, hcd, _⟩
    · rw [h0]; rfl
    · rw [h0]; exact readDigits_none 10 c cs 0 hcd
  unfold atoi
  simp only
  rw [hd]
  cases (readSign (List.dropWhile isspace s.data)).1 <;>
    simp only [Bool.false_eq_true, if_false, if_true, Nat.cast_zero, neg_zero] <;>
    exact wrapInt_clamp_zero

theorem toFloat_zero : toFloat (CFloat.fin 0) = CFloat.fin 0 := by decide!

/-- C17, the counterexample: the value tokens `inf` and `NAN` have no numeric
prefix, yet `-t inf` gives an infinite temperature and `-p NAN` a topp that
is NaN, not 0. -/
theorem non_numeric_counterexample :
    noNumericPrefix "inf" = true ∧
      main ["model.bin", "-t", "inf"] 1700000000 =
        Except.ok { defaults with
          checkpoint_path := some "model.bin", temperature := CFloat.pinf,
          rng_seed := 1700000000 } ∧
      noNumericPrefix "NAN" = true ∧
      main ["model.bin", "-p", "NAN"] 1700000000 =
        Except.ok { defaults with
          checkpoint_path := some "model.bin", topp := CFloat.nan, rng_seed := 1700000000 } := by
  decide!

/-- C17, as amended: numeric parsing never fails, since appending a pair
with any of the eight flags and any value token to a successful argument list
gives a run that succeeds.  On every argument list on which `main` succeeds:
when the value token of the last `-t` (or `-p`) pair has no numeric prefix
and does not start, after white space and sign, with `inf` or `nan` in any
letter case, the temperature (or the topp) is 0; when the value token of the
last `-n` pair has no numeric prefix, the steps is 0; and when the value
token of the last `-s` pair has no numeric prefix, the seed is the
time-derived value, the clock reading modulo `2 ^ 32`. -/
theorem non_numeric_value (argv : List String) (now : Int) (r : GenerationRequest)
    (h : main argv now = Except.ok r) :
    (∀ v, lastValue 't' argv.tail = some v → noNumericPrefix v = true →
        startsInfNan v = false → r.temperature = CFloat.fin 0) ∧
      (∀ v, lastValue 'p' argv.tail = some v → noNumericPrefix v = true →
        startsInfNan v = false → r.topp = CFloat.fin 0) ∧
      (∀ v, lastValue 'n' argv.tail = some v → noNumericPrefix v = true → r.steps = 0) ∧
      (∀ v, lastValue 's' argv.tail = some v → noNumericPrefix v = true →
        r.rng_seed = (now % 2 ^ 32).toNat) ∧
      (∀ x, x ∈ optionLetters → ∀ v, ∃ r1, main (argv ++ [flagToken x, v]) now = Except.ok r1) := by
  obtain ⟨c, rest, rfl, _, _⟩ := main_ok argv now r h
  obtain ⟨ht, hp, hn, hs, _⟩ := main_ok_fields c rest now r h
  simp only [List.tail_cons]
  refine ⟨?_, ?_, ?_, ?_, ?_⟩
  · intro v hv h1 h2
    rw [ht, hv]
    simp only [Option.map_some', Option.getD_some, atof_noNumericPrefix v h1 h2, toFloat_zero]
    rw [ite_self]
  · intro v hv h1 h2
    rw [hp, hv]
    simp only [Option.map_some', Option.getD_some, atof_noNumericPrefix v h1 h2, toFloat_zero]
    rw [if_neg]
    simp [CFloat.lt]
  · intro v hv h1
    rw [hn, hv]
    simp only [Option.map_some', Option.getD_some, atoi_noNumericPrefix v h1]
    rfl
  · intro v hv h1
    rw [hs, hv]
    simp only [Option.map_some', Option.getD_some, atoi_noNumericPrefix v h1]
    rfl
  · intro x hx v
    obtain ⟨c1, rest1, _, h1⟩ := main_append_pair (c :: rest) now r h x hx v
    exact ⟨_, h1⟩

set_option maxRecDepth 4000 in
/-- C17, the amended statement at `model.bin -t abc -n "" -s x7`: temperature
0, steps 0 and the seed from the clock. -/
theorem non_numeric_value_witness :
    main ["model.bin", "-t", "abc", "-n", "", "-s", "x7"] 1700000000 =
        Except.ok { defaults with
          checkpoint_path := some "model.bin", temperature := CFloat.fin 0, steps := 0,
          rng_seed := 1700000000 } ∧
      lastValue 't' ["-t", "abc", "-n", "", "-s", "x7"] = some "abc" ∧
      noNumericPrefix "abc" = true ∧ startsInfNan "abc" = false ∧
      noNumericPrefix "" = true ∧ noNumericPrefix "x7" = true ∧
      atof "abc" = CFloat.fin 0 ∧ atoi "" = 0 ∧ atoi "x7" = 0 ∧
      ((1700000000 : Nat) = ((1700000000 : Int) % 2 ^ 32).toNat) :=
  have h := non_numeric_value ["model.bin", "-t", "abc", "-n", "", "-s", "x7"] 1700000000
    { defaults with
      checkpoint_path := some "model.bin", temperature := CFloat.fin 0, steps := 0,
      rng_seed := 1700000000 } (by decide!)
  ⟨by decide!, by decide, by decide, by decide, by decide, by decide, by decide!, by decide,
    by decide, h.2.2.2.1 "x7" (by decide) (by decide)⟩

/-- The overrides at two clock readings differ in the seed at most, and not
at all when the seed before them is not 0. -/
theorem overrides_two_clocks (now1 now2 : Int) (st : GenerationRequest) :
    overrides now2 st = { overrides now1 st with rng_seed := (overrides now2 st).rng_seed } ∧
      (st.rng_seed ≠ 0 → overrides now1 st = overrides now2 st) := by
  rw [overrides_eq now1, overrides_eq now2]
  refine ⟨rfl, ?_⟩
  intro h
  rw [if_neg h, if_neg h]

/-- C18: the clock reading reaches the result through the seed only.  For
every argument list and any two clock readings, the run fails at one reading
exactly when it fails at the other, with the same error; when it succeeds,
the two requests differ in the seed at most; and when the last `-s` pair
carries a value that `atoi` reads as a positive integer, the two results are
identical. -/
theorem clock_only_seeds (argv : List String) (now1 now2 : Int) :
    (∀ e, main argv now1 = Except.error e ↔ main argv now2 = Except.error e) ∧
      ((∃ r1, main argv now1 = Except.ok r1) ↔ (∃ r2, main argv now2 = Except.ok r2)) ∧
      (∀ r1 r2, main argv now1 = Except.ok r1 → main argv now2 = Except.ok r2 →
        r2 = { r1 with rng_seed := r2.rng_seed }) ∧
      (∀ v, lastValue 's' argv.tail = some v → 0 < atoi v →
        main argv now1 = main argv now2) := by
  cases argv with
  | nil =>
    refine ⟨fun e => Iff.rfl, ⟨fun ⟨r, hr⟩ => ⟨r, hr⟩, fun ⟨r, hr⟩ => ⟨r, hr⟩⟩, ?_, ?_⟩
    · intro r1 r2 h1 _
      simp [main, error_usage] at h1
    · intro v _ _
      rfl
  | cons c rest =>
    simp only [main_cons, List.tail_cons]
    cases hl : argLoop rest { defaults with checkpoint_path := some c } with
    | error e0 =>
      refine ⟨fun e => Iff.rfl, ⟨fun ⟨r, hr⟩ => ⟨r, hr⟩, fun ⟨r, hr⟩ => ⟨r, hr⟩⟩, ?_, ?_⟩
      · intro r1 r2 h1 _
        simp at h1
      · intro v _ _
        trivial
    | ok st =>
      refine ⟨?_, ?_, ?_, ?_⟩
      · intro e
        simp
      · exact ⟨fun _ => ⟨_, rfl⟩, fun _ => ⟨_, rfl⟩⟩
      · intro r1 r2 h1 h2
        simp only [Except.ok.injEq] at h1 h2
        rw [← h1, ← h2]
        exact (overrides_two_clocks now1 now2 st).1
      · intro v hv hpos
        have hst : st.rng_seed = toULongLong (atoi v) := by
          rw [argLoop_lastWins rest _ st hl]
          show (Option.map (fun v => toULongLong (atoi v)) (lastValue 's' rest)).getD 0 = _
          rw [hv]
          rfl
        have hne : st.rng_seed ≠ 0 := by
          rw [hst]
          exact Nat.pos_iff_ne_zero.1
            (toULongLong_pos (atoi v) (by omega) (atoi_range v).1 (atoi_range v).2)
        simp only [Except.ok.injEq]
        exact (overrides_two_clocks now1 now2 st).2 hne

/-- C18 at `model.bin -s 42 -t 0.5`, at the clock readings 1700000000 and
1800000000: the two results are the same request, with seed 42. -/
theorem clock_only_seeds_witness :
    lastValue 's' ["-s", "42", "-t", "0.5"] = some "42" ∧ 0 < atoi "42" ∧
      main ["model.bin", "-s", "42", "-t", "0.5"] 1700000000 =
        main ["model.bin", "-s", "42", "-t", "0.5"] 1800000000 ∧
      main ["model.bin", "-s", "42", "-t", "0.5"] 1700000000 =
        Except.ok { defaults with
          checkpoint_path := some "model.bin", temperature := CFloat.fin (1 / 2),
          rng_seed := 42 } :=
  ⟨by decide, by decide,
    (clock_only_seeds ["model.bin", "-s", "42", "-t", "0.5"] 1700000000 1800000000).2.2.2
      "42" (by decide) (by decide),
    by decide!⟩

/-- The recursive reading of a well-formed token list and the reading by
positions agree: the length is even and every token at an even index (from
0) is a recognised flag. -/
theorem goodPairs_iff_positions (toks : List String) :
    goodPairs toks = true ↔
      toks.length % 2 = 0 ∧
        ∀ k, 2 * k < toks.length → recognised (toks.getD (2 * k) "") = true := by
  induction toks using pairs_induction with
  | h0 => simp [goodPairs]
  | h1 a => simp [goodPairs]
  | h2 flag value rest ih =>
    simp only [goodPairs, Bool.and_eq_true, ih, List.length_cons]
    constructor
    · rintro ⟨hf, hlen, hk⟩
      refine ⟨by omega, ?_⟩
      intro k hk2
      cases k with
      | zero => exact hf
      | succ j =>
        have : 2 * (j + 1) = (2 * j) + 1 + 1 := by ring
        rw [this, List.getD_cons_succ, List.getD_cons_succ]
        exact hk j (by omega)
    · rintro ⟨hlen, hk⟩
      refine ⟨hk 0 (by omega), by omega, ?_⟩
      intro j hj
      have h2 := hk (j + 1) (by omega)
      have : 2 * (j + 1) = (2 * j) + 1 + 1 := by ring
      rw [this, List.getD_cons_succ, List.getD_cons_succ] at h2
      exact h2

theorem main_succeeds_iff (argv : List String) (now : Int) :
    (∃ r, main argv now = Except.ok r) ↔
      argv ≠ [] ∧ argv.tail.length % 2 = 0 ∧
        ∀ k, 2 * k < argv.tail.length → recognised (argv.tail.getD (2 * k) "") = true := by
  rw [← goodPairs_iff_positions]
  constructor
  · rintro ⟨r, hr⟩
    obtain ⟨c, rest, rfl, hg, _⟩ := main_ok argv now r hr
    exact ⟨List.cons_ne_nil c rest, hg⟩
  · rintro ⟨hne, hg⟩
    cases argv with
    | nil => exact absurd rfl hne
    | cons c rest => exact ⟨_, main_goodPairs c rest now hg⟩

/-- C19: `main` succeeds if and only if the argument list is not empty, the
number of tokens after the checkpoint is even, and every token at a flag
position (the tokens of even index, from 0, after the checkpoint: positions
2, 4, 6, ... of the list counted from 1) is a dash followed by one of `t`,
`p`, `s`, `n`, `i`, `z`, `m`, `y`.  So two argument lists of the same length
that agree at the flag positions succeed or fail together, whatever their
checkpoint tokens, their value tokens and the clock readings. -/
theorem success_iff_flags (argv : List String) (now : Int) :
    ((∃ r, main argv now = Except.ok r) ↔
        argv ≠ [] ∧ argv.tail.length % 2 = 0 ∧
          ∀ k, 2 * k < argv.tail.length →
            ∃ c, c ∈ optionLetters ∧ argv.tail.getD (2 * k) "" = String.mk ['-', c]) ∧
      ∀ (other : List String) (now1 : Int), other.length = argv.length →
        (∀ k, other.tail.getD (2 * k) "" = argv.tail.getD (2 * k) "") →
        ((∃ r, main other now1 = Except.ok r) ↔ (∃ r, main argv now = Except.ok r)) := by
  constructor
  · rw [main_succeeds_iff]
    simp only [recognised_iff, flagToken]
  · intro other now1 hlen hflags
    rw [main_succeeds_iff, main_succeeds_iff]
    have hne : other ≠ [] ↔ argv ≠ [] := by
      cases other <;> cases argv <;> simp at hlen ⊢
    have htl : other.tail.length = argv.tail.length := by
      simp only [List.length_tail, hlen]
    rw [hne, htl]
    simp only [hflags]

/-- C19 at `model.bin -t 0.5 -i hi`, which succeeds, and at the list of the
same flags with other checkpoint and value tokens. -/
theorem success_iff_flags_witness :
    (∃ r, main ["model.bin", "-t", "0.5", "-i", "hi"] 1700000000 = Except.ok r) ∧
      (∃ r, main ["", "-t", "abc", "-i", "-n"] 3 = Except.ok r) :=
  have h := success_iff_flags ["model.bin", "-t", "0.5", "-i", "hi"] 1700000000
  have h1 : ∃ r, main ["model.bin", "-t", "0.5", "-i", "hi"] 1700000000 = Except.ok r :=
    ⟨_, main_goodPairs "model.bin" ["-t", "0.5", "-i", "hi"] 1700000000 (by decide)⟩
  ⟨h1, (h.2 ["", "-t", "abc", "-i", "-n"] 3 rfl (by
      intro k
      match k with
      | 0 => rfl
      | 1 => rfl
      | k + 2 => rfl)).2 h1⟩

/-- The locals read off the last pairs depend on the token list through the
last value of each flag only. -/
theorem lastWins_congr (a b : List String) (st : GenerationRequest)
    (h : ∀ x, x ∈ optionLetters → lastValue x a = lastValue x b) :
    lastWins a st = lastWins b st := by
  unfold lastWins
  rw [h 't' (by decide), h 'p' (by decide), h 's' (by decide), h 'n' (by decide),
    h 'i' (by decide), h 'z' (by decide), h 'm' (by decide), h 'y' (by decide)]

/-- C20: the last occurrence of a flag wins.  On every argument list on
which `main` succeeds, the locals before the overrides are, field by field,
the value token of the last pair of the field's flag as the dispatch stores
it, or the default when the flag has no pair; so two successful argument
lists with the same checkpoint whose last pairs carry, flag by flag, the same
value token leave the same locals and give the same request, whatever their
earlier pairs and the order of their pairs. -/
theorem last_occurrence_wins (c : String) (rest : List String) (now : Int)
    (r : GenerationRequest) (h : main (c :: rest) now = Except.ok r) :
    ∃ st, argLoop rest { defaults with checkpoint_path := some c } = Except.ok st ∧
      r = overrides now st ∧
      st =
        { checkpoint_path := some c
          tokenizer_path := (lastValue 'z' rest).getD "tokenizer.bin"
          temperature :=
            ((lastValue 't' rest).map (fun v => toFloat (atof v))).getD (CFloat.fin 1)
          topp := ((lastValue 'p' rest).map (fun v => toFloat (atof v))).getD float_0_9
          steps := ((lastValue 'n' rest).map atoi).getD 256
          prompt := ((lastValue 'i' rest).map some).getD none
          rng_seed := ((lastValue 's' rest).map (fun v => toULongLong (atoi v))).getD 0
          mode := (lastValue 'm' rest).getD "generate"
          system_prompt := ((lastValue 'y' rest).map some).getD none } ∧
      ∀ (other : List String) (r1 : GenerationRequest),
        main (c :: other) now = Except.ok r1 →
        (∀ x, x ∈ optionLetters → lastValue x other = lastValue x rest) →
        argLoop other { defaults with checkpoint_path := some c } = Except.ok st ∧ r1 = r := by
  obtain ⟨c1, rest1, he, hg, hr⟩ := main_ok (c :: rest) now r h
  simp only [List.cons.injEq] at he
  obtain ⟨rfl, rfl⟩ := he
  refine ⟨lastWins rest { defaults with checkpoint_path := some c },
    argLoop_goodPairs rest _ hg, hr, rfl, ?_⟩
  intro other r1 h1 hsame
  obtain ⟨c2, rest2, he2, hg2, hr2⟩ := main_ok (c :: other) now r1 h1
  simp only [List.cons.injEq] at he2
  obtain ⟨rfl, rfl⟩ := he2
  have hw := lastWins_congr other rest { defaults with checkpoint_path := some c } hsame
  constructor
  · rw [argLoop_goodPairs other _ hg2, hw]
  · rw [hr, hr2, hw]

set_option maxRecDepth 8000 in
/-- C20 at `model.bin -t 0.1 -n 5 -t 0.5` and `model.bin -n 5 -t 0.5`: the
earlier `-t 0.1` does not show, the two scans leave the same locals and the
two runs give the same request. -/
theorem last_occurrence_wins_witness :
    main ["model.bin", "-t", "0.1", "-n", "5", "-t", "0.5"] 1700000000 =
        Except.ok { defaults with
          checkpoint_path := some "model.bin", temperature := CFloat.fin (1 / 2), steps := 5,
          rng_seed := 1700000000 } ∧
      main ["model.bin", "-n", "5", "-t", "0.5"] 1700000000 =
        Except.ok { defaults with
          checkpoint_path := some "model.bin", temperature := CFloat.fin (1 / 2), steps := 5,
          rng_seed := 1700000000 } ∧
      lastValue 't' ["-t", "0.1", "-n", "5", "-t", "0.5"] = some "0.5" ∧
      ∃ st,
        argLoop ["-t", "0.1", "-n", "5", "-t", "0.5"]
            { defaults with checkpoint_path := some "model.bin" } = Except.ok st ∧
          argLoop ["-n", "5", "-t", "0.5"]
            { defaults with checkpoint_path := some "model.bin" } = Except.ok st :=
  have h := last_occurrence_wins "model.bin" ["-t", "0.1", "-n", "5", "-t", "0.5"] 1700000000
    { defaults with
      checkpoint_path := some "model.bin", temperature := CFloat.fin (1 / 2), steps := 5,
      rng_seed := 1700000000 } (by decide!)
  match h with
  | ⟨st, hst, _, _, hother⟩ =>
    ⟨by decide!, by decide!, by decide,
      st, hst,
      (hother ["-n", "5", "-t", "0.5"]
        { defaults with
          checkpoint_path := some "model.bin", temperature := CFloat.fin (1 / 2), steps := 5,
          rng_seed := 1700000000 } (by decide!) (by decide)).1⟩

end Llama2c
